import Mathlib

/-
Verification of the note-tracking pipeline of Realtime-AtoM-Converter.

The repository has two variants of the real-time audio callback:
  * src/project_crepe/run.py  (`audio_callback`, global state `cur_note`,
    `pre_notes = [-1,-1,-1,-1]`), pitch observations come from the crepe
    estimator as (frequency, confidence) pairs;
  * src/project_yin/yin.py    (`audio_callback`, global state `cur_note`,
    `pre_notes = [-1,-1,-1]`, `pre_velo = [-1,-1,-1]`, `call_count`), a single
    f0 estimate comes from librosa.yin.

The embedding models one callback invocation as a function from the block's
measurements (mean RMS energy as a rational, and the estimator output) and the
global state to an `Except` of (new state, list of emitted MIDI events).
`Except.error` marks the one place the Python code can raise out of the
callback: `round(librosa.core.hz_to_midi(pitch))` on a non-positive pitch
(log2 yields nan or -inf and Python's `round` then raises).  Float values are
modelled as rationals; `hz_to_midi` needs log2 and lives on the reals.
Python's `round` is round-half-to-even and is modelled exactly.
-/

/-- A MIDI channel-voice message sent by the callback: `midiout.send_message`
of a `[NOTE_ON, note, velo]` or `[NOTE_OFF, note, velo]` triple. -/
inductive NoteEvent where
  | on : ℤ → ℤ → NoteEvent
  | off : ℤ → ℤ → NoteEvent
deriving DecidableEq

/-- Is the event a NoteOn? -/
def NoteEvent.isOn : NoteEvent → Bool
  | .on _ _ => true
  | .off _ _ => false

/-- Python's built-in `round` on a rational value: round half to even. -/
def pyround (x : ℚ) : ℤ :=
  if x + 1/2 = (⌊x + 1/2⌋ : ℚ) ∧ ⌊x + 1/2⌋ % 2 = 1 then ⌊x + 1/2⌋ - 1 else ⌊x + 1/2⌋

-- Python's built-in `round` on a real value: round half to even.
open Classical in
noncomputable def pyroundR (x : ℝ) : ℤ :=
  if x + 1/2 = (⌊x + 1/2⌋ : ℝ) ∧ ⌊x + 1/2⌋ % 2 = 1 then ⌊x + 1/2⌋ - 1 else ⌊x + 1/2⌋

/-- librosa.core.hz_to_midi: `12 * (np.log2(f) - np.log2(440.0)) + 69`. -/
noncomputable def hz_to_midi (f : ℝ) : ℝ :=
  12 * (Real.logb 2 f - Real.logb 2 440) + 69

-- The quantization step `temp = round(librosa.core.hz_to_midi(pitch))` of both
-- callbacks.  On a non-positive pitch `np.log2` yields nan or -inf and Python's
-- `round` raises out of the callback; this is the `Except.error` case.
open Classical in
noncomputable def quantizeHz (f : ℚ) : Except Unit ℤ :=
  if 0 < f then Except.ok (pyroundR (hz_to_midi (f : ℝ))) else Except.error ()

-- The exact half-semitone boundary 440 * 2^(1/24) quantizes to 70:
/-- The energy gate threshold, `energy_threshold = 0.005` in both scripts. -/
def energy_threshold : ℚ := 1/200

/-- run.py velocity mapping:
`cur_velo = round((np.mean(rms_energy) - 0.002) / 0.015 * 127)` then
`cur_velo = min(127, cur_velo)`. -/
def cur_velo_crepe (e : ℚ) : ℤ := min 127 (pyround ((e - 1/500) / (3/200) * 127))

/-- yin.py velocity mapping:
`cur_velo = round((np.mean(rms_energy) - 0.002) / 0.012 * 127)` then
`cur_velo = min(127, cur_velo)`. -/
def cur_velo_yin (e : ℚ) : ℤ := min 127 (pyround ((e - 1/500) / (3/250) * 127))

/-- run.py confidence filter:
`frequency = frequency[confidence > 0.5]; confidence = confidence[confidence > 0.5]`.
Observations are (frequency, confidence) pairs from the crepe `predict` call. -/
def survivors (obs : List (ℚ × ℚ)) : List (ℚ × ℚ) :=
  obs.filter (fun p => decide ((1 : ℚ)/2 < p.2))

/-- run.py validity test `if not np.any(frequency): return` on the filtered
frequencies: true when every remaining frequency is zero (or none remains). -/
def allZero (l : List (ℚ × ℚ)) : Bool :=
  l.all (fun p => decide (p.1 = 0))

/-- run.py pitch aggregation on the filtered observations:
`pitch = frequency @ confidence / np.sum(confidence)`. -/
def aggregate (obs : List (ℚ × ℚ)) : ℚ :=
  ((survivors obs).map (fun p => p.1 * p.2)).sum /
    ((survivors obs).map (fun p => p.2)).sum

/-- Python `pre_notes[-1]` on the history list. -/
def last1 (l : List ℤ) : ℤ := l.getLastD 0

/-- Python `pre_notes[-2]` on the history list. -/
def last2 (l : List ℤ) : ℤ := l.dropLast.getLastD 0

/-- Python `lst[1:] + [x]`: evict the oldest entry and push `x`. -/
def push (l : List ℤ) (x : ℤ) : List ℤ := l.drop 1 ++ [x]

/-- Global state of run.py touched by its callback: `cur_note` and
`pre_notes` (initially `[-1, -1, -1, -1]`). -/
structure CrepeState where
  cur_note : ℤ
  pre_notes : List ℤ
deriving DecidableEq

/-- Initial global state of run.py. -/
def crepeInit : CrepeState := ⟨-1, [-1, -1, -1, -1]⟩

/-- What one audio block of run.py contributes to the callback's decisions:
the mean RMS energy `np.mean(librosa.feature.rms(y=indata.T)[0])` and the
(frequency, confidence) observations returned by the external crepe
`predict(indata, ...)` call. -/
structure CrepeBlock where
  energy : ℚ
  obs : List (ℚ × ℚ)

/-- run.py `audio_callback`, lines 77-137: energy gate (silence forces a
NoteOff and clears `cur_note`), velocity mapping, confidence filter and
validity test, confidence-weighted pitch aggregation, quantization, the
two-entry stability check on `pre_notes`, note-change event emission, and the
final `pre_notes = pre_notes[1:] + [temp]` history update. -/
noncomputable def audio_callback_crepe (b : CrepeBlock) (s : CrepeState) :
    Except Unit (CrepeState × List NoteEvent) :=
  if b.energy < energy_threshold then
    if s.cur_note ≠ -1 then
      Except.ok (⟨-1, s.pre_notes⟩, [NoteEvent.off s.cur_note 10])
    else
      Except.ok (s, [])
  else
    if allZero (survivors b.obs) then
      Except.ok (s, [])
    else
      Except.map (fun temp =>
        if temp = last1 s.pre_notes ∧ temp = last2 s.pre_notes then
          if temp ≠ s.cur_note ∧ temp ≠ -1 then
            (⟨temp, push s.pre_notes temp⟩,
              (if s.cur_note ≠ -1 then [NoteEvent.off s.cur_note 10] else []) ++
                [NoteEvent.on temp (cur_velo_crepe b.energy)])
          else
            (⟨temp, push s.pre_notes temp⟩, [])
        else
          (⟨s.cur_note, push s.pre_notes temp⟩, []))
        (quantizeHz (aggregate b.obs))

/-- Global state of yin.py touched by its callback: `cur_note`, `pre_notes`,
`pre_velo` (both initially `[-1, -1, -1]`) and `call_count`. -/
structure YinState where
  cur_note : ℤ
  pre_notes : List ℤ
  pre_velo : List ℤ
  call_count : ℤ
deriving DecidableEq

/-- Initial global state of yin.py. -/
def yinInit : YinState := ⟨-1, [-1, -1, -1], [-1, -1, -1], 0⟩

/-- What one audio block of yin.py contributes to the callback's decisions:
the mean RMS energy and the single f0 estimate
`np.median(librosa.yin(...)[0])` produced by the external estimator. -/
structure YinBlock where
  energy : ℚ
  f0 : ℚ

/-- yin.py `audio_callback`, lines 75-140: energy gate (silence forces a
NoteOff, clears `cur_note` and resets `call_count`), velocity mapping,
quantization of the f0 estimate, the two-entry stability check on
`pre_notes`, note-change emission, the velocity-jump retrigger
(`cur_velo > pre_velo[-1] + 20 and call_count > 1`), and the final
`pre_notes`/`pre_velo` history updates. -/
noncomputable def audio_callback_yin (b : YinBlock) (s : YinState) :
    Except Unit (YinState × List NoteEvent) :=
  if b.energy < energy_threshold then
    if s.cur_note ≠ -1 then
      Except.ok (⟨-1, s.pre_notes, s.pre_velo, 0⟩, [NoteEvent.off s.cur_note 10])
    else
      Except.ok (s, [])
  else
    Except.map (fun temp =>
      if temp = last1 s.pre_notes ∧ temp = last2 s.pre_notes then
        if temp ≠ s.cur_note then
          (⟨temp, push s.pre_notes temp,
            push s.pre_velo (cur_velo_yin b.energy), 1⟩,
          (if s.cur_note ≠ -1 then [NoteEvent.off s.cur_note 10] else []) ++
            [NoteEvent.on temp (cur_velo_yin b.energy)])
        else
          if cur_velo_yin b.energy > last1 s.pre_velo + 20 ∧ s.call_count > 1 then
            (⟨temp, push s.pre_notes temp,
              push s.pre_velo (cur_velo_yin b.energy), 1⟩,
            [NoteEvent.off s.cur_note (last1 s.pre_velo),
              NoteEvent.on temp (cur_velo_yin b.energy)])
          else
            (⟨temp, push s.pre_notes temp,
              push s.pre_velo (cur_velo_yin b.energy), s.call_count + 1⟩, [])
      else
        (⟨s.cur_note, push s.pre_notes temp,
          push s.pre_velo (cur_velo_yin b.energy), s.call_count⟩, []))
      (quantizeHz b.f0)

/-- Process a sequence of blocks through the run.py callback, collecting all
emitted events in order; an exception aborts the stream. -/
noncomputable def run_crepe :
    List CrepeBlock → CrepeState → Except Unit (CrepeState × List NoteEvent)
  | [], s => Except.ok (s, [])
  | b :: bs, s =>
    match audio_callback_crepe b s with
    | Except.error u => Except.error u
    | Except.ok (s', evs) =>
      match run_crepe bs s' with
      | Except.error u => Except.error u
      | Except.ok (s'', evs') => Except.ok (s'', evs ++ evs')

/-- Process a sequence of blocks through the yin.py callback, collecting all
emitted events in order; an exception aborts the stream. -/
noncomputable def run_yin :
    List YinBlock → YinState → Except Unit (YinState × List NoteEvent)
  | [], s => Except.ok (s, [])
  | b :: bs, s =>
    match audio_callback_yin b s with
    | Except.error u => Except.error u
    | Except.ok (s', evs) =>
      match run_yin bs s' with
      | Except.error u => Except.error u
      | Except.ok (s'', evs') => Except.ok (s'', evs ++ evs')

/-- Stream teardown of run.py (end of the `with stream:` block followed by
`del midiout`, lines 174-179): the MIDI port is closed without sending any
message, so teardown emits no events for any state. -/
def teardown_events_crepe (_s : CrepeState) : List NoteEvent := []

/-- Stream teardown of yin.py (KeyboardInterrupt handler, lines 185-196:
`stream.stop(); stream.close(); del midiout; sys.exit(0)`): the MIDI port is
closed without sending any message, so teardown emits no events. -/
def teardown_events_yin (_s : YinState) : List NoteEvent := []

/-- Number of NoteOn events in a list. -/
def onCount (l : List NoteEvent) : ℕ := l.countP (fun e => e.isOn)

/-- Number of NoteOff events in a list. -/
def offCount (l : List NoteEvent) : ℕ := l.countP (fun e => !e.isOn)

/-- The last event of the list exists and is a NoteOn. -/
def lastOn (l : List NoteEvent) : Prop :=
  ∃ e, l.getLast? = some e ∧ e.isOn = true

/-- Every initial segment has at most one more NoteOn than NoteOffs. -/
def PrefixBound (l : List NoteEvent) : Prop :=
  ∀ n : ℕ, onCount (l.take n) ≤ offCount (l.take n) + 1

/-- No two consecutive events are both NoteOn. -/
def NoTwoOn (l : List NoteEvent) : Prop :=
  List.Chain' (fun a b => ¬(a.isOn = true ∧ b.isOn = true)) l

/-- The monophony property of an emitted event sequence: at every point the
number of NoteOns exceeds the number of NoteOffs by at most one, and no two
consecutive events are both NoteOn. -/
def MonoSeq (l : List NoteEvent) : Prop :=
  (∀ p ∈ l.inits, onCount p ≤ offCount p + 1) ∧ NoTwoOn l

/-- Invariant tying the emitted event history to whether a note is open. -/
def EvInv (opn : Prop) (l : List NoteEvent) : Prop :=
  (opn → onCount l = offCount l + 1 ∧ lastOn l) ∧
  (¬ opn → onCount l = offCount l ∧ ¬ lastOn l) ∧
  PrefixBound l ∧ NoTwoOn l

/-- The block's quantized note is not the sentinel `-1` (aggregated pitch not
within a quarter tone of roughly 7.73 Hz), so it cannot collide with the
"no note" marker used for `cur_note`. -/
def CrepeNoSentinel (b : CrepeBlock) : Prop :=
  ∀ t : ℤ, quantizeHz (aggregate b.obs) = Except.ok t → t ≠ -1

/-- The block's quantized note is not the sentinel `-1`. -/
def YinNoSentinel (b : YinBlock) : Prop :=
  ∀ t : ℤ, quantizeHz b.f0 = Except.ok t → t ≠ -1

theorem pyround_eq_of_bounds (x : ℚ) (n : ℤ) (h1 : (n : ℚ) - 1/2 < x)
    (h2 : x < (n : ℚ) + 1/2) : pyround x = n := by
  have hfl : ⌊x + 1/2⌋ = n := by
    rw [Int.floor_eq_iff]
    constructor
    · linarith
    · linarith
  unfold pyround
  rw [hfl, if_neg]
  rintro ⟨he, -⟩
  linarith

theorem pyroundR_eq_of_bounds (x : ℝ) (n : ℤ) (h1 : (n : ℝ) - 1/2 < x)
    (h2 : x < (n : ℝ) + 1/2) : pyroundR x = n := by
  have hfl : ⌊x + 1/2⌋ = n := by
    rw [Int.floor_eq_iff]
    constructor
    · linarith
    · linarith
  unfold pyroundR
  rw [hfl, if_neg]
  rintro ⟨he, -⟩
  linarith

theorem pyround_ge (k : ℤ) (x : ℚ) (h : (k : ℚ) + 1/2 ≤ x) : k ≤ pyround x := by
  have hfl : k + 1 ≤ ⌊x + 1/2⌋ := by
    rw [Int.le_floor]
    push_cast
    linarith
  unfold pyround
  split
  · omega
  · omega

theorem hz_to_midi_pos_eq (f : ℝ) (hf : 0 < f) :
    hz_to_midi f = 69 + 12 * Real.logb 2 (f / 440) := by
  unfold hz_to_midi
  rw [Real.logb_div (ne_of_gt hf) (by norm_num)]
  ring

theorem quantizeHz_pos (f : ℚ) (hf : 0 < f) :
    quantizeHz f = Except.ok (pyroundR (hz_to_midi (f : ℝ))) := by
  unfold quantizeHz
  rw [if_pos hf]

theorem quantizeHz_nonpos (f : ℚ) (hf : ¬ 0 < f) :
    quantizeHz f = Except.error () := by
  unfold quantizeHz
  rw [if_neg hf]

theorem quantizeHz_eq_of_pow24 (f : ℚ) (n : ℤ) (hf : 0 < f)
    (h1 : (2 : ℚ) ^ (2 * n - 139) < (f / 440) ^ (24 : ℕ))
    (h2 : (f / 440) ^ (24 : ℕ) < (2 : ℚ) ^ (2 * n - 137)) :
    quantizeHz f = Except.ok n := by
  have hf' : (0 : ℝ) < (f : ℝ) := by exact_mod_cast hf
  have hr : (0 : ℝ) < (f : ℝ) / 440 := by positivity
  have hcast : (((f / 440 : ℚ) ^ (24 : ℕ) : ℚ) : ℝ) = ((f : ℝ) / 440) ^ (24 : ℕ) := by
    push_cast
    ring
  have hzc : ∀ m : ℤ, (((2 : ℚ) ^ m : ℚ) : ℝ) = (2 : ℝ) ^ m := by
    intro m
    rw [Rat.cast_zpow]
    norm_num
  have h1' : (2 : ℝ) ^ ((2 * n - 139 : ℤ) : ℝ) < ((f : ℝ) / 440) ^ (24 : ℕ) := by
    rw [Real.rpow_intCast, ← hcast, ← hzc]
    exact_mod_cast h1
  have h2' : ((f : ℝ) / 440) ^ (24 : ℕ) < (2 : ℝ) ^ ((2 * n - 137 : ℤ) : ℝ) := by
    rw [Real.rpow_intCast, ← hcast, ← hzc]
    exact_mod_cast h2
  have key1 : ((2 * n - 139 : ℤ) : ℝ) < Real.logb 2 (((f : ℝ) / 440) ^ (24 : ℕ)) :=
    (Real.lt_logb_iff_rpow_lt (by norm_num) (by positivity)).mpr h1'
  have key2 : Real.logb 2 (((f : ℝ) / 440) ^ (24 : ℕ)) < ((2 * n - 137 : ℤ) : ℝ) :=
    (Real.logb_lt_iff_lt_rpow (by norm_num) (by positivity)).mpr h2'
  rw [Real.logb_pow] at key1 key2
  push_cast at key1 key2
  rw [quantizeHz_pos f hf, hz_to_midi_pos_eq _ hf']
  rw [pyroundR_eq_of_bounds (69 + 12 * Real.logb 2 ((f : ℝ) / 440)) n
    (by linarith) (by linarith)]

theorem quantizeHz_440 : quantizeHz 440 = Except.ok 69 := by
  apply quantizeHz_eq_of_pow24 440 69 (by norm_num) <;> norm_num

theorem quantizeHz_880 : quantizeHz 880 = Except.ok 81 := by
  apply quantizeHz_eq_of_pow24 880 81 (by norm_num) <;> norm_num

theorem quantizeHz_low : quantizeHz (39/5) = Except.ok (-1) := by
  apply quantizeHz_eq_of_pow24 (39/5) (-1) (by norm_num) <;> norm_num

theorem quantizeHz_466_16 : quantizeHz (46616/100) = Except.ok 70 := by
  apply quantizeHz_eq_of_pow24 (46616/100) 70 (by norm_num) <;> norm_num

theorem quantizeHz_452_88 : quantizeHz (45288/100) = Except.ok 69 := by
  apply quantizeHz_eq_of_pow24 (45288/100) 69 (by norm_num) <;> norm_num

theorem quantizeHz_452_90 : quantizeHz (45290/100) = Except.ok 70 := by
  apply quantizeHz_eq_of_pow24 (45290/100) 70 (by norm_num) <;> norm_num

theorem quantizeHz_261_6 : quantizeHz (2616/10) = Except.ok 60 := by
  apply quantizeHz_eq_of_pow24 (2616/10) 60 (by norm_num) <;> norm_num

-- hz_to_midi gives exactly 69.5 there and round-half-to-even picks 70.
theorem hz_to_midi_boundary :
    hz_to_midi (440 * (2 : ℝ) ^ ((1 : ℝ) / 24)) = 69 + 1/2 := by
  unfold hz_to_midi
  rw [Real.logb_mul (by norm_num) (by positivity),
    Real.logb_rpow (by norm_num) (by norm_num)]
  ring

theorem pyroundR_69_half : pyroundR (69 + 1/2 : ℝ) = 70 := by
  have hfl : ⌊(69 + 1/2 : ℝ) + 1/2⌋ = 70 := by
    rw [show ((69 + 1/2 : ℝ) + 1/2) = ((70 : ℤ) : ℝ) by norm_num]
    exact Int.floor_intCast 70
  unfold pyroundR
  rw [hfl, if_neg]
  rintro ⟨-, h⟩
  norm_num at h

theorem evInv_monoSeq (opn : Prop) (l : List NoteEvent) (h : EvInv opn l) :
    MonoSeq l := by
  obtain ⟨-, -, hp, hc⟩ := h
  refine ⟨fun p hp' => ?_, hc⟩
  rw [List.mem_inits, List.prefix_iff_eq_take] at hp'
  rw [hp']
  exact hp p.length

theorem evInv_of_not (opn : Prop) (h : ¬ opn) : EvInv opn [] := by
  refine ⟨fun ho => absurd ho h, fun _ => ⟨rfl, ?_⟩, fun n => by simp [onCount, offCount], ?_⟩
  · rintro ⟨e, he, -⟩
    simp at he
  · exact List.chain'_nil

theorem onCount_append (l l' : List NoteEvent) :
    onCount (l ++ l') = onCount l + onCount l' := List.countP_append _ _ _

theorem offCount_append (l l' : List NoteEvent) :
    offCount (l ++ l') = offCount l + offCount l' := List.countP_append _ _ _

theorem prefixBound_concat (l : List NoteEvent) (e : NoteEvent)
    (h : PrefixBound l)
    (hful : onCount (l ++ [e]) ≤ offCount (l ++ [e]) + 1) :
    PrefixBound (l ++ [e]) := by
  intro n
  rcases le_or_lt n l.length with hn | hn
  · rw [List.take_append_eq_append_take, Nat.sub_eq_zero_of_le hn, List.take_zero,
      List.append_nil]
    exact h n
  · rw [List.take_of_length_le (by simp ; omega)]
    exact hful

theorem evInv_append_off (l : List NoteEvent) (m v : ℤ)
    (h1 : onCount l = offCount l + 1) (h3 : PrefixBound l) (h4 : NoTwoOn l) :
    onCount (l ++ [NoteEvent.off m v]) = offCount (l ++ [NoteEvent.off m v]) ∧
    ¬ lastOn (l ++ [NoteEvent.off m v]) ∧
    PrefixBound (l ++ [NoteEvent.off m v]) ∧ NoTwoOn (l ++ [NoteEvent.off m v]) := by
  have hcnt : onCount (l ++ [NoteEvent.off m v]) = offCount (l ++ [NoteEvent.off m v]) := by
    rw [onCount_append, offCount_append,
      show onCount [NoteEvent.off m v] = 0 from rfl,
      show offCount [NoteEvent.off m v] = 1 from rfl]
    omega
  refine ⟨hcnt, ?_, prefixBound_concat l _ h3 (by omega), ?_⟩
  · rintro ⟨e, he, hon⟩
    rw [List.getLast?_concat] at he
    cases he
    simp [NoteEvent.isOn] at hon
  · unfold NoTwoOn at h4 ⊢
    rw [List.chain'_append]
    refine ⟨h4, List.chain'_singleton _, ?_⟩
    intro x _ y hy
    simp at hy
    subst hy
    simp [NoteEvent.isOn]

theorem evInv_append_on (l : List NoteEvent) (m v : ℤ)
    (h1 : onCount l = offCount l) (h2 : ¬ lastOn l)
    (h3 : PrefixBound l) (h4 : NoTwoOn l) :
    onCount (l ++ [NoteEvent.on m v]) = offCount (l ++ [NoteEvent.on m v]) + 1 ∧
    lastOn (l ++ [NoteEvent.on m v]) ∧
    PrefixBound (l ++ [NoteEvent.on m v]) ∧ NoTwoOn (l ++ [NoteEvent.on m v]) := by
  have hcnt : onCount (l ++ [NoteEvent.on m v]) =
      offCount (l ++ [NoteEvent.on m v]) + 1 := by
    rw [onCount_append, offCount_append,
      show onCount [NoteEvent.on m v] = 1 from rfl,
      show offCount [NoteEvent.on m v] = 0 from rfl]
    omega
  refine ⟨hcnt, ⟨NoteEvent.on m v, List.getLast?_concat _, rfl⟩,
    prefixBound_concat l _ h3 (by omega), ?_⟩
  unfold NoTwoOn at h4 ⊢
  rw [List.chain'_append]
  refine ⟨h4, List.chain'_singleton _, ?_⟩
  intro x hx y hy
  simp at hy
  subst hy
  rintro ⟨hxon, -⟩
  exact h2 ⟨x, hx, hxon⟩

theorem audio_callback_crepe_silent (b : CrepeBlock) (s : CrepeState)
    (h : b.energy < energy_threshold) :
    audio_callback_crepe b s = Except.ok
      (if s.cur_note ≠ -1 then (⟨-1, s.pre_notes⟩, [NoteEvent.off s.cur_note 10])
       else (s, [])) := by
  unfold audio_callback_crepe
  rw [if_pos h]
  by_cases h2 : s.cur_note ≠ -1
  · rw [if_pos h2, if_pos h2]
  · rw [if_neg h2, if_neg h2]

theorem audio_callback_crepe_invalid (b : CrepeBlock) (s : CrepeState)
    (h1 : ¬ b.energy < energy_threshold) (h2 : allZero (survivors b.obs) = true) :
    audio_callback_crepe b s = Except.ok (s, []) := by
  unfold audio_callback_crepe
  rw [if_neg h1, if_pos h2]

theorem audio_callback_crepe_active (b : CrepeBlock) (s : CrepeState) (temp : ℤ)
    (h1 : ¬ b.energy < energy_threshold) (h2 : allZero (survivors b.obs) = false)
    (hq : quantizeHz (aggregate b.obs) = Except.ok temp) :
    audio_callback_crepe b s = Except.ok
      (if temp = last1 s.pre_notes ∧ temp = last2 s.pre_notes then
        if temp ≠ s.cur_note ∧ temp ≠ -1 then
          (⟨temp, push s.pre_notes temp⟩,
            (if s.cur_note ≠ -1 then [NoteEvent.off s.cur_note 10] else []) ++
              [NoteEvent.on temp (cur_velo_crepe b.energy)])
        else (⟨temp, push s.pre_notes temp⟩, [])
      else (⟨s.cur_note, push s.pre_notes temp⟩, [])) := by
  unfold audio_callback_crepe
  rw [if_neg h1, if_neg (by rw [h2] ; exact Bool.false_ne_true), hq]
  rfl

theorem audio_callback_crepe_error (b : CrepeBlock) (s : CrepeState)
    (h1 : ¬ b.energy < energy_threshold) (h2 : allZero (survivors b.obs) = false)
    (hq : quantizeHz (aggregate b.obs) = Except.error ()) :
    audio_callback_crepe b s = Except.error () := by
  unfold audio_callback_crepe
  rw [if_neg h1, if_neg (by rw [h2] ; exact Bool.false_ne_true), hq]
  rfl

theorem audio_callback_yin_silent (b : YinBlock) (s : YinState)
    (h : b.energy < energy_threshold) :
    audio_callback_yin b s = Except.ok
      (if s.cur_note ≠ -1 then
        (⟨-1, s.pre_notes, s.pre_velo, 0⟩, [NoteEvent.off s.cur_note 10])
       else (s, [])) := by
  unfold audio_callback_yin
  rw [if_pos h]
  by_cases h2 : s.cur_note ≠ -1
  · rw [if_pos h2, if_pos h2]
  · rw [if_neg h2, if_neg h2]

theorem audio_callback_yin_active (b : YinBlock) (s : YinState) (temp : ℤ)
    (h1 : ¬ b.energy < energy_threshold)
    (hq : quantizeHz b.f0 = Except.ok temp) :
    audio_callback_yin b s = Except.ok
      (if temp = last1 s.pre_notes ∧ temp = last2 s.pre_notes then
        if temp ≠ s.cur_note then
          (⟨temp, push s.pre_notes temp,
            push s.pre_velo (cur_velo_yin b.energy), 1⟩,
          (if s.cur_note ≠ -1 then [NoteEvent.off s.cur_note 10] else []) ++
            [NoteEvent.on temp (cur_velo_yin b.energy)])
        else
          if cur_velo_yin b.energy > last1 s.pre_velo + 20 ∧ s.call_count > 1 then
            (⟨temp, push s.pre_notes temp,
              push s.pre_velo (cur_velo_yin b.energy), 1⟩,
            [NoteEvent.off s.cur_note (last1 s.pre_velo),
              NoteEvent.on temp (cur_velo_yin b.energy)])
          else
            (⟨temp, push s.pre_notes temp,
              push s.pre_velo (cur_velo_yin b.energy), s.call_count + 1⟩, [])
      else
        (⟨s.cur_note, push s.pre_notes temp,
          push s.pre_velo (cur_velo_yin b.energy), s.call_count⟩, [])) := by
  unfold audio_callback_yin
  rw [if_neg h1, hq]
  rfl

theorem crepe_step_preserve (b : CrepeBlock) (s s' : CrepeState)
    (evs chunk : List NoteEvent) (hb : CrepeNoSentinel b)
    (hcb : audio_callback_crepe b s = Except.ok (s', chunk))
    (hI : EvInv (s.cur_note ≠ -1) evs) :
    EvInv (s'.cur_note ≠ -1) (evs ++ chunk) := by
  obtain ⟨hIo, hIc, hIp, hIn⟩ := hI
  by_cases h1 : b.energy < energy_threshold
  · rw [audio_callback_crepe_silent b s h1] at hcb
    by_cases h2 : s.cur_note ≠ -1
    · rw [if_pos h2] at hcb
      simp only [Except.ok.injEq, Prod.mk.injEq] at hcb
      obtain ⟨hs', hch⟩ := hcb
      subst hs'
      subst hch
      have A := evInv_append_off evs s.cur_note 10 (hIo h2).1 hIp hIn
      exact ⟨fun ho => absurd rfl ho, fun _ => ⟨A.1, A.2.1⟩, A.2.2.1, A.2.2.2⟩
    · rw [if_neg h2] at hcb
      simp only [Except.ok.injEq, Prod.mk.injEq] at hcb
      obtain ⟨hs', hch⟩ := hcb
      subst hs'
      subst hch
      rw [List.append_nil]
      exact ⟨hIo, hIc, hIp, hIn⟩
  · by_cases h2 : allZero (survivors b.obs)
    · rw [audio_callback_crepe_invalid b s h1 h2] at hcb
      simp only [Except.ok.injEq, Prod.mk.injEq] at hcb
      obtain ⟨hs', hch⟩ := hcb
      subst hs'
      subst hch
      rw [List.append_nil]
      exact ⟨hIo, hIc, hIp, hIn⟩
    · rcases hqq : quantizeHz (aggregate b.obs) with u | temp
      · rw [audio_callback_crepe_error b s h1 (Bool.not_eq_true _ ▸ h2) hqq] at hcb
        cases hcb
      · have htm : temp ≠ -1 := hb temp hqq
        rw [audio_callback_crepe_active b s temp h1 (Bool.not_eq_true _ ▸ h2) hqq] at hcb
        by_cases h3 : temp = last1 s.pre_notes ∧ temp = last2 s.pre_notes
        · rw [if_pos h3] at hcb
          by_cases h4 : temp ≠ s.cur_note ∧ temp ≠ -1
          · rw [if_pos h4] at hcb
            by_cases h5 : s.cur_note ≠ -1
            · rw [if_pos h5] at hcb
              simp only [Except.ok.injEq, Prod.mk.injEq] at hcb
              obtain ⟨hs', hch⟩ := hcb
              subst hs'
              subst hch
              rw [show [NoteEvent.off s.cur_note 10] ++
                  [NoteEvent.on temp (cur_velo_crepe b.energy)] =
                  [NoteEvent.off s.cur_note 10, NoteEvent.on temp (cur_velo_crepe b.energy)]
                from rfl]
              rw [show evs ++ [NoteEvent.off s.cur_note 10,
                  NoteEvent.on temp (cur_velo_crepe b.energy)] =
                  (evs ++ [NoteEvent.off s.cur_note 10]) ++
                    [NoteEvent.on temp (cur_velo_crepe b.energy)] by simp]
              have A := evInv_append_off evs s.cur_note 10 (hIo h5).1 hIp hIn
              have B := evInv_append_on (evs ++ [NoteEvent.off s.cur_note 10])
                temp (cur_velo_crepe b.energy) A.1 A.2.1 A.2.2.1 A.2.2.2
              exact ⟨fun _ => ⟨B.1, B.2.1⟩, fun hn => absurd htm hn, B.2.2.1, B.2.2.2⟩
            · rw [if_neg h5] at hcb
              simp only [Except.ok.injEq, Prod.mk.injEq] at hcb
              obtain ⟨hs', hch⟩ := hcb
              subst hs'
              subst hch
              rw [List.nil_append]
              have B := evInv_append_on evs temp (cur_velo_crepe b.energy)
                (hIc h5).1 (hIc h5).2 hIp hIn
              exact ⟨fun _ => ⟨B.1, B.2.1⟩, fun hn => absurd htm hn, B.2.2.1, B.2.2.2⟩
          · rw [if_neg h4] at hcb
            simp only [Except.ok.injEq, Prod.mk.injEq] at hcb
            obtain ⟨hs', hch⟩ := hcb
            subst hs'
            subst hch
            have hte : temp = s.cur_note := by
              rcases not_and_or.mp h4 with h | h
              · exact not_not.mp h
              · exact absurd (not_not.mp h) htm
            rw [List.append_nil]
            rw [show (⟨temp, push s.pre_notes temp⟩ : CrepeState).cur_note = temp from rfl,
              hte]
            exact ⟨hIo, hIc, hIp, hIn⟩
        · rw [if_neg h3] at hcb
          simp only [Except.ok.injEq, Prod.mk.injEq] at hcb
          obtain ⟨hs', hch⟩ := hcb
          subst hs'
          subst hch
          rw [List.append_nil]
          exact ⟨hIo, hIc, hIp, hIn⟩

theorem yin_step_preserve (b : YinBlock) (s s' : YinState)
    (evs chunk : List NoteEvent) (hb : YinNoSentinel b)
    (hcb : audio_callback_yin b s = Except.ok (s', chunk))
    (hI : EvInv (s.cur_note ≠ -1) evs) :
    EvInv (s'.cur_note ≠ -1) (evs ++ chunk) := by
  obtain ⟨hIo, hIc, hIp, hIn⟩ := hI
  by_cases h1 : b.energy < energy_threshold
  · rw [audio_callback_yin_silent b s h1] at hcb
    by_cases h2 : s.cur_note ≠ -1
    · rw [if_pos h2] at hcb
      simp only [Except.ok.injEq, Prod.mk.injEq] at hcb
      obtain ⟨hs', hch⟩ := hcb
      subst hs'
      subst hch
      have A := evInv_append_off evs s.cur_note 10 (hIo h2).1 hIp hIn
      exact ⟨fun ho => absurd rfl ho, fun _ => ⟨A.1, A.2.1⟩, A.2.2.1, A.2.2.2⟩
    · rw [if_neg h2] at hcb
      simp only [Except.ok.injEq, Prod.mk.injEq] at hcb
      obtain ⟨hs', hch⟩ := hcb
      subst hs'
      subst hch
      rw [List.append_nil]
      exact ⟨hIo, hIc, hIp, hIn⟩
  · rcases hqq : quantizeHz b.f0 with u | temp
    · rw [audio_callback_yin] at hcb
      rw [if_neg h1, hqq] at hcb
      cases hcb
    · have htm : temp ≠ -1 := hb temp hqq
      rw [audio_callback_yin_active b s temp h1 hqq] at hcb
      by_cases h3 : temp = last1 s.pre_notes ∧ temp = last2 s.pre_notes
      · rw [if_pos h3] at hcb
        by_cases h4 : temp ≠ s.cur_note
        · rw [if_pos h4] at hcb
          by_cases h5 : s.cur_note ≠ -1
          · rw [if_pos h5] at hcb
            simp only [Except.ok.injEq, Prod.mk.injEq] at hcb
            obtain ⟨hs', hch⟩ := hcb
            subst hs'
            subst hch
            rw [show [NoteEvent.off s.cur_note 10] ++
                [NoteEvent.on temp (cur_velo_yin b.energy)] =
                [NoteEvent.off s.cur_note 10, NoteEvent.on temp (cur_velo_yin b.energy)]
              from rfl]
            rw [show evs ++ [NoteEvent.off s.cur_note 10,
                NoteEvent.on temp (cur_velo_yin b.energy)] =
                (evs ++ [NoteEvent.off s.cur_note 10]) ++
                  [NoteEvent.on temp (cur_velo_yin b.energy)] by simp]
            have A := evInv_append_off evs s.cur_note 10 (hIo h5).1 hIp hIn
            have B := evInv_append_on (evs ++ [NoteEvent.off s.cur_note 10])
              temp (cur_velo_yin b.energy) A.1 A.2.1 A.2.2.1 A.2.2.2
            exact ⟨fun _ => ⟨B.1, B.2.1⟩, fun hn => absurd htm hn, B.2.2.1, B.2.2.2⟩
          · rw [if_neg h5] at hcb
            simp only [Except.ok.injEq, Prod.mk.injEq] at hcb
            obtain ⟨hs', hch⟩ := hcb
            subst hs'
            subst hch
            rw [List.nil_append]
            have B := evInv_append_on evs temp (cur_velo_yin b.energy)
              (hIc h5).1 (hIc h5).2 hIp hIn
            exact ⟨fun _ => ⟨B.1, B.2.1⟩, fun hn => absurd htm hn, B.2.2.1, B.2.2.2⟩
        · rw [if_neg h4] at hcb
          have hte : temp = s.cur_note := not_not.mp h4
          have h5 : s.cur_note ≠ -1 := hte ▸ htm
          by_cases h6 : cur_velo_yin b.energy > last1 s.pre_velo + 20 ∧ s.call_count > 1
          · rw [if_pos h6] at hcb
            simp only [Except.ok.injEq, Prod.mk.injEq] at hcb
            obtain ⟨hs', hch⟩ := hcb
            subst hs'
            subst hch
            rw [show evs ++ [NoteEvent.off s.cur_note (last1 s.pre_velo),
                NoteEvent.on temp (cur_velo_yin b.energy)] =
                (evs ++ [NoteEvent.off s.cur_note (last1 s.pre_velo)]) ++
                  [NoteEvent.on temp (cur_velo_yin b.energy)] by simp]
            have A := evInv_append_off evs s.cur_note (last1 s.pre_velo)
              (hIo h5).1 hIp hIn
            have B := evInv_append_on (evs ++ [NoteEvent.off s.cur_note (last1 s.pre_velo)])
              temp (cur_velo_yin b.energy) A.1 A.2.1 A.2.2.1 A.2.2.2
            exact ⟨fun _ => ⟨B.1, B.2.1⟩, fun hn => absurd htm hn, B.2.2.1, B.2.2.2⟩
          · rw [if_neg h6] at hcb
            simp only [Except.ok.injEq, Prod.mk.injEq] at hcb
            obtain ⟨hs', hch⟩ := hcb
            subst hs'
            subst hch
            rw [List.append_nil]
            rw [show (⟨temp, push s.pre_notes temp,
              push s.pre_velo (cur_velo_yin b.energy),
              s.call_count + 1⟩ : YinState).cur_note = temp from rfl, hte]
            exact ⟨hIo, hIc, hIp, hIn⟩
      · rw [if_neg h3] at hcb
        simp only [Except.ok.injEq, Prod.mk.injEq] at hcb
        obtain ⟨hs', hch⟩ := hcb
        subst hs'
        subst hch
        rw [List.append_nil]
        exact ⟨hIo, hIc, hIp, hIn⟩

theorem run_crepe_nil (s : CrepeState) : run_crepe [] s = Except.ok (s, []) := rfl

theorem run_yin_nil (s : YinState) : run_yin [] s = Except.ok (s, []) := rfl

theorem run_crepe_cons_ok (b : CrepeBlock) (bs : List CrepeBlock)
    (s s1 s2 : CrepeState) (e1 e2 : List NoteEvent)
    (h1 : audio_callback_crepe b s = Except.ok (s1, e1))
    (h2 : run_crepe bs s1 = Except.ok (s2, e2)) :
    run_crepe (b :: bs) s = Except.ok (s2, e1 ++ e2) := by
  unfold run_crepe
  simp only [h1, h2]

theorem run_yin_cons_ok (b : YinBlock) (bs : List YinBlock)
    (s s1 s2 : YinState) (e1 e2 : List NoteEvent)
    (h1 : audio_callback_yin b s = Except.ok (s1, e1))
    (h2 : run_yin bs s1 = Except.ok (s2, e2)) :
    run_yin (b :: bs) s = Except.ok (s2, e1 ++ e2) := by
  unfold run_yin
  simp only [h1, h2]

theorem run_crepe_cons_inv (b : CrepeBlock) (bs : List CrepeBlock)
    (s s2 : CrepeState) (evs : List NoteEvent)
    (h : run_crepe (b :: bs) s = Except.ok (s2, evs)) :
    ∃ s1 e1 e2, audio_callback_crepe b s = Except.ok (s1, e1) ∧
      run_crepe bs s1 = Except.ok (s2, e2) ∧ evs = e1 ++ e2 := by
  unfold run_crepe at h
  rcases hcb : audio_callback_crepe b s with u | ⟨s1, e1⟩
  · rw [hcb] at h
    cases h
  · simp only [hcb] at h
    rcases hr : run_crepe bs s1 with u | ⟨s2', e2⟩
    · simp only [hr] at h
      cases h
    · simp only [hr, Except.ok.injEq, Prod.mk.injEq] at h
      exact ⟨s1, e1, e2, rfl, h.1 ▸ hr, h.2.symm⟩

theorem run_yin_cons_inv (b : YinBlock) (bs : List YinBlock)
    (s s2 : YinState) (evs : List NoteEvent)
    (h : run_yin (b :: bs) s = Except.ok (s2, evs)) :
    ∃ s1 e1 e2, audio_callback_yin b s = Except.ok (s1, e1) ∧
      run_yin bs s1 = Except.ok (s2, e2) ∧ evs = e1 ++ e2 := by
  unfold run_yin at h
  rcases hcb : audio_callback_yin b s with u | ⟨s1, e1⟩
  · rw [hcb] at h
    cases h
  · simp only [hcb] at h
    rcases hr : run_yin bs s1 with u | ⟨s2', e2⟩
    · simp only [hr] at h
      cases h
    · simp only [hr, Except.ok.injEq, Prod.mk.injEq] at h
      exact ⟨s1, e1, e2, rfl, h.1 ▸ hr, h.2.symm⟩

theorem run_crepe_evInv (bs : List CrepeBlock) : ∀ (s : CrepeState)
    (evs0 : List NoteEvent) (sf : CrepeState) (evsN : List NoteEvent),
    (∀ b ∈ bs, CrepeNoSentinel b) → run_crepe bs s = Except.ok (sf, evsN) →
    EvInv (s.cur_note ≠ -1) evs0 → EvInv (sf.cur_note ≠ -1) (evs0 ++ evsN) := by
  induction bs with
  | nil =>
    intro s evs0 sf evsN _ h hI
    rw [run_crepe_nil] at h
    simp only [Except.ok.injEq, Prod.mk.injEq] at h
    rw [← h.1, ← h.2, List.append_nil]
    exact hI
  | cons b bs ih =>
    intro s evs0 sf evsN hns h hI
    obtain ⟨s1, e1, e2, hcb, hr, hevs⟩ := run_crepe_cons_inv b bs s sf evsN h
    have hI1 := crepe_step_preserve b s s1 evs0 e1 (hns b (by simp)) hcb hI
    have := ih s1 (evs0 ++ e1) sf e2 (fun x hx => hns x (by simp [hx])) hr hI1
    rw [hevs, ← List.append_assoc]
    exact this

theorem run_yin_evInv (bs : List YinBlock) : ∀ (s : YinState)
    (evs0 : List NoteEvent) (sf : YinState) (evsN : List NoteEvent),
    (∀ b ∈ bs, YinNoSentinel b) → run_yin bs s = Except.ok (sf, evsN) →
    EvInv (s.cur_note ≠ -1) evs0 → EvInv (sf.cur_note ≠ -1) (evs0 ++ evsN) := by
  induction bs with
  | nil =>
    intro s evs0 sf evsN _ h hI
    rw [run_yin_nil] at h
    simp only [Except.ok.injEq, Prod.mk.injEq] at h
    rw [← h.1, ← h.2, List.append_nil]
    exact hI
  | cons b bs ih =>
    intro s evs0 sf evsN hns h hI
    obtain ⟨s1, e1, e2, hcb, hr, hevs⟩ := run_yin_cons_inv b bs s sf evsN h
    have hI1 := yin_step_preserve b s s1 evs0 e1 (hns b (by simp)) hcb hI
    have := ih s1 (evs0 ++ e1) sf e2 (fun x hx => hns x (by simp [hx])) hr hI1
    rw [hevs, ← List.append_assoc]
    exact this

theorem survivors_single_kept (f c : ℚ) (hc : 1/2 < c) :
    survivors [(f, c)] = [(f, c)] := by
  simp [survivors, List.filter_cons]
  linarith

theorem aggregate_single (f c : ℚ) (hc : 1/2 < c) : aggregate [(f, c)] = f := by
  rw [aggregate, survivors_single_kept f c hc]
  simp
  rw [mul_div_assoc, div_self (by linarith), mul_one]

theorem allZero_single_false (f c : ℚ) (hf : f ≠ 0) (hc : 1/2 < c) :
    allZero (survivors [(f, c)]) = false := by
  rw [survivors_single_kept f c hc]
  simp [allZero, hf]

theorem cur_velo_crepe_1_100 : cur_velo_crepe (1/100) = 68 := by
  unfold cur_velo_crepe
  rw [pyround_eq_of_bounds _ 68 (by norm_num) (by norm_num)]
  decide

theorem cur_velo_crepe_17_1000 : cur_velo_crepe (17/1000) = 127 := by
  unfold cur_velo_crepe
  rw [pyround_eq_of_bounds _ 127 (by norm_num) (by norm_num)]
  decide

/-- C1.  Monophony as claimed for every block sequence fails on the code: the
quantized note `-1` (aggregated pitch near 7.73 Hz, here 7.8 Hz) collides with
the "no note" sentinel.  In run.py a stable `-1` while note 69 is sounding
sets `cur_note = -1` without sending any NoteOff (the guard `temp != -1`
suppresses the event but `cur_note = temp` still runs), after which note 81
starts with no NoteOff in between: the emitted sequence is exactly
`[NoteOn 69, NoteOn 81]`, two consecutive NoteOns with no NoteOff at all. -/
theorem C1_monophony_cex :
    run_crepe [⟨1/100, [(440, 1)]⟩, ⟨1/100, [(440, 1)]⟩, ⟨1/100, [(440, 1)]⟩,
        ⟨1/100, [(39/5, 1)]⟩, ⟨1/100, [(39/5, 1)]⟩, ⟨1/100, [(39/5, 1)]⟩,
        ⟨1/100, [(880, 1)]⟩, ⟨1/100, [(880, 1)]⟩, ⟨1/100, [(880, 1)]⟩] crepeInit =
      Except.ok (⟨81, [-1, 81, 81, 81]⟩,
        [NoteEvent.on 69 68, NoteEvent.on 81 68]) ∧
    ¬ MonoSeq [NoteEvent.on 69 68, NoteEvent.on 81 68] := by
  have hE : ¬ ((1:ℚ)/100 < energy_threshold) := by norm_num [energy_threshold]
  have hqA : quantizeHz (aggregate [((440:ℚ), (1:ℚ))]) = Except.ok 69 := by
    rw [aggregate_single 440 1 (by norm_num)]
    exact quantizeHz_440
  have hqS : quantizeHz (aggregate [((39:ℚ)/5, (1:ℚ))]) = Except.ok (-1) := by
    rw [aggregate_single (39/5) 1 (by norm_num)]
    exact quantizeHz_low
  have hqB : quantizeHz (aggregate [((880:ℚ), (1:ℚ))]) = Except.ok 81 := by
    rw [aggregate_single 880 1 (by norm_num)]
    exact quantizeHz_880
  have azA := allZero_single_false 440 1 (by norm_num) (by norm_num)
  have azS := allZero_single_false (39/5) 1 (by norm_num) (by norm_num)
  have azB := allZero_single_false 880 1 (by norm_num) (by norm_num)
  have h1 : audio_callback_crepe ⟨1/100, [(440, 1)]⟩ ⟨-1, [-1, -1, -1, -1]⟩ =
      Except.ok (⟨-1, [-1, -1, -1, 69]⟩, []) := by
    rw [audio_callback_crepe_active ⟨1/100, [(440, 1)]⟩ ⟨-1, [-1, -1, -1, -1]⟩ 69 hE azA hqA]
    rw [if_neg (by decide)]
    rfl
  have h2 : audio_callback_crepe ⟨1/100, [(440, 1)]⟩ ⟨-1, [-1, -1, -1, 69]⟩ =
      Except.ok (⟨-1, [-1, -1, 69, 69]⟩, []) := by
    rw [audio_callback_crepe_active ⟨1/100, [(440, 1)]⟩ ⟨-1, [-1, -1, -1, 69]⟩ 69 hE azA hqA]
    rw [if_neg (by decide)]
    rfl
  have h3 : audio_callback_crepe ⟨1/100, [(440, 1)]⟩ ⟨-1, [-1, -1, 69, 69]⟩ =
      Except.ok (⟨69, [-1, 69, 69, 69]⟩, [NoteEvent.on 69 68]) := by
    rw [audio_callback_crepe_active ⟨1/100, [(440, 1)]⟩ ⟨-1, [-1, -1, 69, 69]⟩ 69 hE azA hqA]
    rw [if_pos (by decide), if_pos (by decide), if_neg (by decide)]
    norm_num [push, cur_velo_crepe_1_100]
  have h4 : audio_callback_crepe ⟨1/100, [(39/5, 1)]⟩ ⟨69, [-1, 69, 69, 69]⟩ =
      Except.ok (⟨69, [69, 69, 69, -1]⟩, []) := by
    rw [audio_callback_crepe_active ⟨1/100, [(39/5, 1)]⟩ ⟨69, [-1, 69, 69, 69]⟩ (-1) hE azS hqS]
    rw [if_neg (by decide)]
    rfl
  have h5 : audio_callback_crepe ⟨1/100, [(39/5, 1)]⟩ ⟨69, [69, 69, 69, -1]⟩ =
      Except.ok (⟨69, [69, 69, -1, -1]⟩, []) := by
    rw [audio_callback_crepe_active ⟨1/100, [(39/5, 1)]⟩ ⟨69, [69, 69, 69, -1]⟩ (-1) hE azS hqS]
    rw [if_neg (by decide)]
    rfl
  have h6 : audio_callback_crepe ⟨1/100, [(39/5, 1)]⟩ ⟨69, [69, 69, -1, -1]⟩ =
      Except.ok (⟨-1, [69, -1, -1, -1]⟩, []) := by
    rw [audio_callback_crepe_active ⟨1/100, [(39/5, 1)]⟩ ⟨69, [69, 69, -1, -1]⟩ (-1) hE azS hqS]
    rw [if_pos (by decide), if_neg (by decide)]
    rfl
  have h7 : audio_callback_crepe ⟨1/100, [(880, 1)]⟩ ⟨-1, [69, -1, -1, -1]⟩ =
      Except.ok (⟨-1, [-1, -1, -1, 81]⟩, []) := by
    rw [audio_callback_crepe_active ⟨1/100, [(880, 1)]⟩ ⟨-1, [69, -1, -1, -1]⟩ 81 hE azB hqB]
    rw [if_neg (by decide)]
    rfl
  have h8 : audio_callback_crepe ⟨1/100, [(880, 1)]⟩ ⟨-1, [-1, -1, -1, 81]⟩ =
      Except.ok (⟨-1, [-1, -1, 81, 81]⟩, []) := by
    rw [audio_callback_crepe_active ⟨1/100, [(880, 1)]⟩ ⟨-1, [-1, -1, -1, 81]⟩ 81 hE azB hqB]
    rw [if_neg (by decide)]
    rfl
  have h9 : audio_callback_crepe ⟨1/100, [(880, 1)]⟩ ⟨-1, [-1, -1, 81, 81]⟩ =
      Except.ok (⟨81, [-1, 81, 81, 81]⟩, [NoteEvent.on 81 68]) := by
    rw [audio_callback_crepe_active ⟨1/100, [(880, 1)]⟩ ⟨-1, [-1, -1, 81, 81]⟩ 81 hE azB hqB]
    rw [if_pos (by decide), if_pos (by decide), if_neg (by decide)]
    norm_num [push, cur_velo_crepe_1_100]
  constructor
  · have hrun := run_crepe_cons_ok _ _ _ _ _ _ _ h1
      (run_crepe_cons_ok _ _ _ _ _ _ _ h2
        (run_crepe_cons_ok _ _ _ _ _ _ _ h3
          (run_crepe_cons_ok _ _ _ _ _ _ _ h4
            (run_crepe_cons_ok _ _ _ _ _ _ _ h5
              (run_crepe_cons_ok _ _ _ _ _ _ _ h6
                (run_crepe_cons_ok _ _ _ _ _ _ _ h7
                  (run_crepe_cons_ok _ _ _ _ _ _ _ h8
                    (run_crepe_cons_ok _ _ _ _ _ _ _ h9
                      (run_crepe_nil _)))))))))
    simpa using hrun
  · rintro ⟨-, h⟩
    unfold NoTwoOn at h
    rw [List.chain'_cons] at h
    simp [NoteEvent.isOn] at h

/-- C1 (amended).  Monophony: for every block sequence in which no block's
pitch quantizes to the sentinel note `-1` (aggregated pitch near 7.73 Hz,
which the shipped estimators cannot produce), the event sequence emitted by
the run.py callback, and likewise by the yin.py callback, has at every point
at most one more NoteOn than NoteOffs and never two consecutive NoteOns. -/
theorem C1_monophony :
    (∀ (blocks : List CrepeBlock) (sf : CrepeState) (evs : List NoteEvent),
      (∀ b ∈ blocks, CrepeNoSentinel b) →
      run_crepe blocks crepeInit = Except.ok (sf, evs) → MonoSeq evs) ∧
    (∀ (blocks : List YinBlock) (sf : YinState) (evs : List NoteEvent),
      (∀ b ∈ blocks, YinNoSentinel b) →
      run_yin blocks yinInit = Except.ok (sf, evs) → MonoSeq evs) := by
  constructor
  · intro blocks sf evs hns hr
    have h0 : EvInv (crepeInit.cur_note ≠ -1) [] :=
      evInv_of_not _ (by simp [crepeInit])
    have h := run_crepe_evInv blocks crepeInit [] sf evs hns hr h0
    rw [List.nil_append] at h
    exact evInv_monoSeq _ _ h
  · intro blocks sf evs hns hr
    have h0 : EvInv (yinInit.cur_note ≠ -1) [] :=
      evInv_of_not _ (by simp [yinInit])
    have h := run_yin_evInv blocks yinInit [] sf evs hns hr h0
    rw [List.nil_append] at h
    exact evInv_monoSeq _ _ h

theorem C1_monophony_witness :
    (∀ b ∈ [CrepeBlock.mk (1/100) [(440, 1)], CrepeBlock.mk (1/100) [(440, 1)],
        CrepeBlock.mk (1/100) [(440, 1)]], CrepeNoSentinel b) ∧
    run_crepe [CrepeBlock.mk (1/100) [(440, 1)], CrepeBlock.mk (1/100) [(440, 1)],
        CrepeBlock.mk (1/100) [(440, 1)]] crepeInit =
      Except.ok (⟨69, [-1, 69, 69, 69]⟩, [NoteEvent.on 69 68]) ∧
    MonoSeq [NoteEvent.on 69 68] := by
  have hE : ¬ ((1:ℚ)/100 < energy_threshold) := by norm_num [energy_threshold]
  have hqA : quantizeHz (aggregate [((440:ℚ), (1:ℚ))]) = Except.ok 69 := by
    rw [aggregate_single 440 1 (by norm_num)]
    exact quantizeHz_440
  have azA := allZero_single_false 440 1 (by norm_num) (by norm_num)
  have hns : ∀ b ∈ [CrepeBlock.mk (1/100) [(440, 1)],
      CrepeBlock.mk (1/100) [(440, 1)], CrepeBlock.mk (1/100) [(440, 1)]],
      CrepeNoSentinel b := by
    intro b hb t ht
    simp only [List.mem_cons, List.not_mem_nil, or_false] at hb
    rcases hb with h | h | h <;> subst h <;>
      rw [hqA] at ht <;> cases ht <;> decide
  have h1 : audio_callback_crepe ⟨1/100, [(440, 1)]⟩ ⟨-1, [-1, -1, -1, -1]⟩ =
      Except.ok (⟨-1, [-1, -1, -1, 69]⟩, []) := by
    rw [audio_callback_crepe_active ⟨1/100, [(440, 1)]⟩ ⟨-1, [-1, -1, -1, -1]⟩ 69 hE azA hqA]
    rw [if_neg (by decide)]
    rfl
  have h2 : audio_callback_crepe ⟨1/100, [(440, 1)]⟩ ⟨-1, [-1, -1, -1, 69]⟩ =
      Except.ok (⟨-1, [-1, -1, 69, 69]⟩, []) := by
    rw [audio_callback_crepe_active ⟨1/100, [(440, 1)]⟩ ⟨-1, [-1, -1, -1, 69]⟩ 69 hE azA hqA]
    rw [if_neg (by decide)]
    rfl
  have h3 : audio_callback_crepe ⟨1/100, [(440, 1)]⟩ ⟨-1, [-1, -1, 69, 69]⟩ =
      Except.ok (⟨69, [-1, 69, 69, 69]⟩, [NoteEvent.on 69 68]) := by
    rw [audio_callback_crepe_active ⟨1/100, [(440, 1)]⟩ ⟨-1, [-1, -1, 69, 69]⟩ 69 hE azA hqA]
    rw [if_pos (by decide), if_pos (by decide), if_neg (by decide)]
    norm_num [push, cur_velo_crepe_1_100]
  have hrun : run_crepe [CrepeBlock.mk (1/100) [(440, 1)],
      CrepeBlock.mk (1/100) [(440, 1)], CrepeBlock.mk (1/100) [(440, 1)]] crepeInit =
      Except.ok (⟨69, [-1, 69, 69, 69]⟩, [NoteEvent.on 69 68]) := by
    have h := run_crepe_cons_ok _ _ _ _ _ _ _ h1
      (run_crepe_cons_ok _ _ _ _ _ _ _ h2
        (run_crepe_cons_ok _ _ _ _ _ _ _ h3 (run_crepe_nil _)))
    simpa using h
  exact ⟨hns, hrun, C1_monophony.1 _ _ _ hns hrun⟩

/-- C2.  Silent blocks: in both variants, a block whose mean RMS energy is
below `energy_threshold = 0.005` emits exactly one NoteOff for the sounding
note with fixed release velocity 10 and clears `cur_note` when a note is
sounding, and emits nothing and leaves the whole state unchanged otherwise;
hence any number of consecutive silent blocks from a state with
`cur_note = -1` produces no events at all. -/
theorem C2_silence :
    (∀ (b : CrepeBlock) (s : CrepeState), b.energy < energy_threshold →
      (s.cur_note ≠ -1 →
        audio_callback_crepe b s =
          Except.ok (⟨-1, s.pre_notes⟩, [NoteEvent.off s.cur_note 10])) ∧
      (s.cur_note = -1 → audio_callback_crepe b s = Except.ok (s, []))) ∧
    (∀ (bs : List CrepeBlock) (s : CrepeState),
      (∀ b ∈ bs, b.energy < energy_threshold) → s.cur_note = -1 →
      run_crepe bs s = Except.ok (s, [])) ∧
    (∀ (b : YinBlock) (s : YinState), b.energy < energy_threshold →
      (s.cur_note ≠ -1 →
        audio_callback_yin b s =
          Except.ok (⟨-1, s.pre_notes, s.pre_velo, 0⟩, [NoteEvent.off s.cur_note 10])) ∧
      (s.cur_note = -1 → audio_callback_yin b s = Except.ok (s, []))) ∧
    (∀ (bs : List YinBlock) (s : YinState),
      (∀ b ∈ bs, b.energy < energy_threshold) → s.cur_note = -1 →
      run_yin bs s = Except.ok (s, [])) := by
  have hc : ∀ (b : CrepeBlock) (s : CrepeState), b.energy < energy_threshold →
      (s.cur_note ≠ -1 →
        audio_callback_crepe b s =
          Except.ok (⟨-1, s.pre_notes⟩, [NoteEvent.off s.cur_note 10])) ∧
      (s.cur_note = -1 → audio_callback_crepe b s = Except.ok (s, [])) := by
    intro b s hb
    constructor
    · intro hcur
      rw [audio_callback_crepe_silent b s hb, if_pos hcur]
    · intro hcur
      rw [audio_callback_crepe_silent b s hb, if_neg (by simp [hcur])]
  have hy : ∀ (b : YinBlock) (s : YinState), b.energy < energy_threshold →
      (s.cur_note ≠ -1 →
        audio_callback_yin b s =
          Except.ok (⟨-1, s.pre_notes, s.pre_velo, 0⟩, [NoteEvent.off s.cur_note 10])) ∧
      (s.cur_note = -1 → audio_callback_yin b s = Except.ok (s, [])) := by
    intro b s hb
    constructor
    · intro hcur
      rw [audio_callback_yin_silent b s hb, if_pos hcur]
    · intro hcur
      rw [audio_callback_yin_silent b s hb, if_neg (by simp [hcur])]
  refine ⟨hc, ?_, hy, ?_⟩
  · intro bs
    induction bs with
    | nil => intro s _ _ ; exact run_crepe_nil s
    | cons b bs ih =>
      intro s hall hcur
      have h1 := (hc b s (hall b (by simp))).2 hcur
      have h2 := ih s (fun x hx => hall x (by simp [hx])) hcur
      have := run_crepe_cons_ok b bs s s s [] [] h1 h2
      simpa using this
  · intro bs
    induction bs with
    | nil => intro s _ _ ; exact run_yin_nil s
    | cons b bs ih =>
      intro s hall hcur
      have h1 := (hy b s (hall b (by simp))).2 hcur
      have h2 := ih s (fun x hx => hall x (by simp [hx])) hcur
      have := run_yin_cons_ok b bs s s s [] [] h1 h2
      simpa using this

theorem C2_silence_witness :
    audio_callback_crepe ⟨0, []⟩ ⟨60, [-1, -1, 60, 60]⟩ =
      Except.ok (⟨-1, [-1, -1, 60, 60]⟩, [NoteEvent.off 60 10]) ∧
    audio_callback_yin ⟨0, 440⟩ ⟨60, [60, 60, 60], [50, 50, 50], 2⟩ =
      Except.ok (⟨-1, [60, 60, 60], [50, 50, 50], 0⟩, [NoteEvent.off 60 10]) ∧
    run_crepe [⟨0, []⟩, ⟨0, []⟩] ⟨-1, [-1, -1, -1, -1]⟩ =
      Except.ok (⟨-1, [-1, -1, -1, -1]⟩, []) := by
  have hE : ((0:ℚ)) < energy_threshold := by norm_num [energy_threshold]
  refine ⟨?_, ?_, ?_⟩
  · exact (C2_silence.1 ⟨0, []⟩ ⟨60, [-1, -1, 60, 60]⟩ hE).1 (by decide)
  · exact (C2_silence.2.2.1 ⟨0, 440⟩ ⟨60, [60, 60, 60], [50, 50, 50], 2⟩ hE).1 (by decide)
  · exact C2_silence.2.1 [⟨0, []⟩, ⟨0, []⟩] ⟨-1, [-1, -1, -1, -1]⟩
      (by intro b hb ; simp only [List.mem_cons, List.not_mem_nil, or_false] at hb ;
          rcases hb with h | h <;> subst h <;> exact hE) rfl

theorem cur_velo_yin_17_1000 : cur_velo_yin (17/1000) = 127 := by
  unfold cur_velo_yin
  rw [pyround_eq_of_bounds _ 159 (by norm_num) (by norm_num)]
  decide

/-- C10.  The run.py variant never retriggers: on a block that passes the
energy gate, has a valid pitch, and whose stable quantized note equals the
sounding `cur_note`, the callback emits no event at all — whatever the block's
velocity — and only pushes the note into `pre_notes` (run.py keeps no
per-note velocity state at all). -/
theorem C10_crepe_no_retrigger :
    ∀ (b : CrepeBlock) (s : CrepeState) (t : ℤ),
      ¬ b.energy < energy_threshold →
      allZero (survivors b.obs) = false →
      quantizeHz (aggregate b.obs) = Except.ok t →
      t = last1 s.pre_notes → t = last2 s.pre_notes → t = s.cur_note →
      audio_callback_crepe b s = Except.ok (⟨t, push s.pre_notes t⟩, []) := by
  intro b s t h1 h2 hq hl1 hl2 hc
  rw [audio_callback_crepe_active b s t h1 h2 hq, if_pos ⟨hl1, hl2⟩,
    if_neg (by simp [hc])]

theorem C10_crepe_no_retrigger_witness :
    audio_callback_crepe ⟨17/1000, [(440, 1)]⟩ ⟨69, [-1, -1, 69, 69]⟩ =
      Except.ok (⟨69, [-1, 69, 69, 69]⟩, []) ∧
    cur_velo_crepe (17/1000) = 127 := by
  have h := C10_crepe_no_retrigger ⟨17/1000, [(440, 1)]⟩ ⟨69, [-1, -1, 69, 69]⟩ 69
    (by norm_num [energy_threshold])
    (allZero_single_false 440 1 (by norm_num) (by norm_num))
    (by rw [aggregate_single 440 1 (by norm_num)] ; exact quantizeHz_440)
    (by decide) (by decide) (by decide)
  exact ⟨by rw [h] ; rfl, cur_velo_crepe_17_1000⟩

/-- C3 (amended).  Retrigger on velocity jump, as the code implements it.
Only the yin.py variant retriggers: on a stable same-note block that passes
the energy gate it emits `NoteOff(cur_note, pre_velo[-1])` immediately
followed by `NoteOn(note, velo)` precisely when
`velo > pre_velo[-1] + 20 and call_count > 1`, where `pre_velo[-1]` is the
velocity recorded for the previous processed block (not a tracked attack
velocity) and `call_count` counts stable blocks since the last attack; it
then resets `call_count` to 1.  Otherwise it emits nothing, pushes the
velocity into `pre_velo` and increments `call_count`.  The run.py variant
never emits anything on a stable same-note block. -/
theorem C3_retrigger :
    (∀ (b : YinBlock) (s : YinState) (t : ℤ),
      ¬ b.energy < energy_threshold →
      quantizeHz b.f0 = Except.ok t →
      t = last1 s.pre_notes → t = last2 s.pre_notes → t = s.cur_note →
      audio_callback_yin b s = Except.ok
        (if cur_velo_yin b.energy > last1 s.pre_velo + 20 ∧ s.call_count > 1 then
          (⟨t, push s.pre_notes t, push s.pre_velo (cur_velo_yin b.energy), 1⟩,
            [NoteEvent.off s.cur_note (last1 s.pre_velo),
              NoteEvent.on t (cur_velo_yin b.energy)])
        else
          (⟨t, push s.pre_notes t, push s.pre_velo (cur_velo_yin b.energy),
            s.call_count + 1⟩, []))) ∧
    (∀ (b : CrepeBlock) (s : CrepeState) (t : ℤ),
      ¬ b.energy < energy_threshold →
      allZero (survivors b.obs) = false →
      quantizeHz (aggregate b.obs) = Except.ok t →
      t = last1 s.pre_notes → t = last2 s.pre_notes → t = s.cur_note →
      audio_callback_crepe b s = Except.ok (⟨t, push s.pre_notes t⟩, [])) := by
  constructor
  · intro b s t h1 hq hl1 hl2 hc
    rw [audio_callback_yin_active b s t h1 hq, if_pos ⟨hl1, hl2⟩,
      if_neg (by simp [hc])]
  · intro b s t h1 h2 hq hl1 hl2 hc
    rw [audio_callback_crepe_active b s t h1 h2 hq, if_pos ⟨hl1, hl2⟩,
      if_neg (by simp [hc])]

theorem C3_retrigger_witness :
    audio_callback_yin ⟨17/1000, 440⟩ ⟨69, [69, 69, 69], [50, 50, 50], 2⟩ =
      Except.ok (⟨69, [69, 69, 69], [50, 50, 127], 1⟩,
        [NoteEvent.off 69 50, NoteEvent.on 69 127]) ∧
    cur_velo_yin (17/1000) = 127 := by
  have h := C3_retrigger.1 ⟨17/1000, 440⟩ ⟨69, [69, 69, 69], [50, 50, 50], 2⟩ 69
    (by norm_num [energy_threshold]) quantizeHz_440
    (by decide) (by decide) (by decide)
  refine ⟨?_, cur_velo_yin_17_1000⟩
  rw [h, if_pos (by rw [show (⟨17/1000, 440⟩ : YinBlock).energy = 17/1000 from rfl,
    cur_velo_yin_17_1000] ; exact ⟨by decide, by decide⟩)]
  rw [show (⟨17/1000, 440⟩ : YinBlock).energy = 17/1000 from rfl, cur_velo_yin_17_1000]
  rfl

/-- C3.  The claimed retrigger behaviour is false for the run.py variant
(named as a source of the claim): from `Sounding(note 69, velocity 68)` a
stable same-note block whose mapped velocity is 127 — a jump of 59 > 20,
with more than one frame since the attack — emits nothing at all, where the
claim requires `NoteOff` then `NoteOn`.  The whole six-block run emits only
the initial `NoteOn 69 68`. -/
theorem C3_retrigger_cex :
    run_crepe [⟨1/100, [(440, 1)]⟩, ⟨1/100, [(440, 1)]⟩, ⟨1/100, [(440, 1)]⟩,
        ⟨1/100, [(440, 1)]⟩, ⟨1/100, [(440, 1)]⟩, ⟨17/1000, [(440, 1)]⟩] crepeInit =
      Except.ok (⟨69, [69, 69, 69, 69]⟩, [NoteEvent.on 69 68]) ∧
    cur_velo_crepe (17/1000) = 127 ∧ ((127:ℤ) > 68 + 20) := by
  have hE : ¬ ((1:ℚ)/100 < energy_threshold) := by norm_num [energy_threshold]
  have hE2 : ¬ ((17:ℚ)/1000 < energy_threshold) := by norm_num [energy_threshold]
  have hqA : quantizeHz (aggregate [((440:ℚ), (1:ℚ))]) = Except.ok 69 := by
    rw [aggregate_single 440 1 (by norm_num)]
    exact quantizeHz_440
  have azA := allZero_single_false 440 1 (by norm_num) (by norm_num)
  have h1 : audio_callback_crepe ⟨1/100, [(440, 1)]⟩ ⟨-1, [-1, -1, -1, -1]⟩ =
      Except.ok (⟨-1, [-1, -1, -1, 69]⟩, []) := by
    rw [audio_callback_crepe_active ⟨1/100, [(440, 1)]⟩ ⟨-1, [-1, -1, -1, -1]⟩ 69 hE azA hqA]
    rw [if_neg (by decide)]
    rfl
  have h2 : audio_callback_crepe ⟨1/100, [(440, 1)]⟩ ⟨-1, [-1, -1, -1, 69]⟩ =
      Except.ok (⟨-1, [-1, -1, 69, 69]⟩, []) := by
    rw [audio_callback_crepe_active ⟨1/100, [(440, 1)]⟩ ⟨-1, [-1, -1, -1, 69]⟩ 69 hE azA hqA]
    rw [if_neg (by decide)]
    rfl
  have h3 : audio_callback_crepe ⟨1/100, [(440, 1)]⟩ ⟨-1, [-1, -1, 69, 69]⟩ =
      Except.ok (⟨69, [-1, 69, 69, 69]⟩, [NoteEvent.on 69 68]) := by
    rw [audio_callback_crepe_active ⟨1/100, [(440, 1)]⟩ ⟨-1, [-1, -1, 69, 69]⟩ 69 hE azA hqA]
    rw [if_pos (by decide), if_pos (by decide), if_neg (by decide)]
    norm_num [push, cur_velo_crepe_1_100]
  have h4 : audio_callback_crepe ⟨1/100, [(440, 1)]⟩ ⟨69, [-1, 69, 69, 69]⟩ =
      Except.ok (⟨69, [69, 69, 69, 69]⟩, []) := by
    rw [audio_callback_crepe_active ⟨1/100, [(440, 1)]⟩ ⟨69, [-1, 69, 69, 69]⟩ 69 hE azA hqA]
    rw [if_pos (by decide), if_neg (by decide)]
    rfl
  have h5 : audio_callback_crepe ⟨1/100, [(440, 1)]⟩ ⟨69, [69, 69, 69, 69]⟩ =
      Except.ok (⟨69, [69, 69, 69, 69]⟩, []) := by
    rw [audio_callback_crepe_active ⟨1/100, [(440, 1)]⟩ ⟨69, [69, 69, 69, 69]⟩ 69 hE azA hqA]
    rw [if_pos (by decide), if_neg (by decide)]
    rfl
  have h6 : audio_callback_crepe ⟨17/1000, [(440, 1)]⟩ ⟨69, [69, 69, 69, 69]⟩ =
      Except.ok (⟨69, [69, 69, 69, 69]⟩, []) := by
    rw [audio_callback_crepe_active ⟨17/1000, [(440, 1)]⟩ ⟨69, [69, 69, 69, 69]⟩ 69 hE2 azA hqA]
    rw [if_pos (by decide), if_neg (by decide)]
    rfl
  refine ⟨?_, cur_velo_crepe_17_1000, by norm_num⟩
  have hrun := run_crepe_cons_ok _ _ _ _ _ _ _ h1
    (run_crepe_cons_ok _ _ _ _ _ _ _ h2
      (run_crepe_cons_ok _ _ _ _ _ _ _ h3
        (run_crepe_cons_ok _ _ _ _ _ _ _ h4
          (run_crepe_cons_ok _ _ _ _ _ _ _ h5
            (run_crepe_cons_ok _ _ _ _ _ _ _ h6 (run_crepe_nil _))))))
  simpa using hrun

theorem push_length (l : List ℤ) (x : ℤ) (h : l ≠ []) :
    (push l x).length = l.length := by
  simp [push]
  cases l with
  | nil => exact absurd rfl h
  | cons a l => simp

theorem crepe_window_step (b : CrepeBlock) (s s' : CrepeState)
    (evs : List NoteEvent)
    (h : audio_callback_crepe b s = Except.ok (s', evs)) :
    (b.energy < energy_threshold → s'.pre_notes = s.pre_notes) ∧
    (¬ b.energy < energy_threshold → allZero (survivors b.obs) = true →
      s' = s ∧ evs = []) ∧
    (∀ t : ℤ, ¬ b.energy < energy_threshold →
      allZero (survivors b.obs) = false →
      quantizeHz (aggregate b.obs) = Except.ok t →
      s'.pre_notes = push s.pre_notes t) := by
  refine ⟨?_, ?_, ?_⟩
  · intro h1
    rw [audio_callback_crepe_silent b s h1] at h
    by_cases h2 : s.cur_note ≠ -1
    · rw [if_pos h2] at h
      simp only [Except.ok.injEq, Prod.mk.injEq] at h
      rw [← h.1]
    · rw [if_neg h2] at h
      simp only [Except.ok.injEq, Prod.mk.injEq] at h
      rw [← h.1]
  · intro h1 h2
    rw [audio_callback_crepe_invalid b s h1 h2] at h
    simp only [Except.ok.injEq, Prod.mk.injEq] at h
    exact ⟨h.1.symm, h.2.symm⟩
  · intro t h1 h2 hq
    rw [audio_callback_crepe_active b s t h1 h2 hq] at h
    by_cases h3 : t = last1 s.pre_notes ∧ t = last2 s.pre_notes
    · rw [if_pos h3] at h
      by_cases h4 : t ≠ s.cur_note ∧ t ≠ -1
      · rw [if_pos h4] at h
        simp only [Except.ok.injEq, Prod.mk.injEq] at h
        rw [← h.1]
      · rw [if_neg h4] at h
        simp only [Except.ok.injEq, Prod.mk.injEq] at h
        rw [← h.1]
    · rw [if_neg h3] at h
      simp only [Except.ok.injEq, Prod.mk.injEq] at h
      rw [← h.1]

theorem yin_window_step (b : YinBlock) (s s' : YinState)
    (evs : List NoteEvent)
    (h : audio_callback_yin b s = Except.ok (s', evs)) :
    (b.energy < energy_threshold →
      s'.pre_notes = s.pre_notes ∧ s'.pre_velo = s.pre_velo) ∧
    (∀ t : ℤ, ¬ b.energy < energy_threshold →
      quantizeHz b.f0 = Except.ok t →
      s'.pre_notes = push s.pre_notes t ∧
      s'.pre_velo = push s.pre_velo (cur_velo_yin b.energy)) := by
  constructor
  · intro h1
    rw [audio_callback_yin_silent b s h1] at h
    by_cases h2 : s.cur_note ≠ -1
    · rw [if_pos h2] at h
      simp only [Except.ok.injEq, Prod.mk.injEq] at h
      rw [← h.1]
      exact ⟨rfl, rfl⟩
    · rw [if_neg h2] at h
      simp only [Except.ok.injEq, Prod.mk.injEq] at h
      rw [← h.1]
      exact ⟨rfl, rfl⟩
  · intro t h1 hq
    rw [audio_callback_yin_active b s t h1 hq] at h
    by_cases h3 : t = last1 s.pre_notes ∧ t = last2 s.pre_notes
    · rw [if_pos h3] at h
      by_cases h4 : t ≠ s.cur_note
      · rw [if_pos h4] at h
        simp only [Except.ok.injEq, Prod.mk.injEq] at h
        rw [← h.1]
        exact ⟨rfl, rfl⟩
      · rw [if_neg h4] at h
        by_cases h5 : cur_velo_yin b.energy > last1 s.pre_velo + 20 ∧ s.call_count > 1
        · rw [if_pos h5] at h
          simp only [Except.ok.injEq, Prod.mk.injEq] at h
          rw [← h.1]
          exact ⟨rfl, rfl⟩
        · rw [if_neg h5] at h
          simp only [Except.ok.injEq, Prod.mk.injEq] at h
          rw [← h.1]
          exact ⟨rfl, rfl⟩
    · rw [if_neg h3] at h
      simp only [Except.ok.injEq, Prod.mk.injEq] at h
      rw [← h.1]
      exact ⟨rfl, rfl⟩

theorem crepe_window_len_step (b : CrepeBlock) (s s' : CrepeState)
    (evs : List NoteEvent)
    (h : audio_callback_crepe b s = Except.ok (s', evs))
    (hl : s.pre_notes.length = 4) : s'.pre_notes.length = 4 := by
  obtain ⟨ha, hb, hc⟩ := crepe_window_step b s s' evs h
  by_cases h1 : b.energy < energy_threshold
  · rw [ha h1, hl]
  · by_cases h2 : allZero (survivors b.obs)
    · rw [(hb h1 h2).1, hl]
    · rcases hq : quantizeHz (aggregate b.obs) with u | t
      · rw [audio_callback_crepe_error b s h1 (Bool.not_eq_true _ ▸ h2) hq] at h
        cases h
      · rw [hc t h1 (Bool.not_eq_true _ ▸ h2) hq,
          push_length _ _ (by intro hnil ; rw [hnil] at hl ; cases hl), hl]

theorem yin_window_len_step (b : YinBlock) (s s' : YinState)
    (evs : List NoteEvent)
    (h : audio_callback_yin b s = Except.ok (s', evs))
    (hl : s.pre_notes.length = 3 ∧ s.pre_velo.length = 3) :
    s'.pre_notes.length = 3 ∧ s'.pre_velo.length = 3 := by
  obtain ⟨ha, hb⟩ := yin_window_step b s s' evs h
  by_cases h1 : b.energy < energy_threshold
  · rw [(ha h1).1, (ha h1).2]
    exact hl
  · rcases hq : quantizeHz b.f0 with u | t
    · rw [audio_callback_yin] at h
      rw [if_neg h1, hq] at h
      cases h
    · rw [(hb t h1 hq).1, (hb t h1 hq).2,
        push_length _ _ (by intro hnil ; rw [hnil] at hl ; cases hl.1),
        push_length _ _ (by intro hnil ; rw [hnil] at hl ; cases hl.2)]
      exact hl

theorem run_crepe_window_len (bs : List CrepeBlock) : ∀ (s sf : CrepeState)
    (evs : List NoteEvent), run_crepe bs s = Except.ok (sf, evs) →
    s.pre_notes.length = 4 → sf.pre_notes.length = 4 := by
  induction bs with
  | nil =>
    intro s sf evs h hl
    rw [run_crepe_nil] at h
    simp only [Except.ok.injEq, Prod.mk.injEq] at h
    rw [← h.1]
    exact hl
  | cons b bs ih =>
    intro s sf evs h hl
    obtain ⟨s1, e1, e2, hcb, hr, -⟩ := run_crepe_cons_inv b bs s sf evs h
    exact ih s1 sf e2 hr (crepe_window_len_step b s s1 e1 hcb hl)

theorem run_yin_window_len (bs : List YinBlock) : ∀ (s sf : YinState)
    (evs : List NoteEvent), run_yin bs s = Except.ok (sf, evs) →
    s.pre_notes.length = 3 ∧ s.pre_velo.length = 3 →
    sf.pre_notes.length = 3 ∧ sf.pre_velo.length = 3 := by
  induction bs with
  | nil =>
    intro s sf evs h hl
    rw [run_yin_nil] at h
    simp only [Except.ok.injEq, Prod.mk.injEq] at h
    rw [← h.1]
    exact hl
  | cons b bs ih =>
    intro s sf evs h hl
    obtain ⟨s1, e1, e2, hcb, hr, -⟩ := run_yin_cons_inv b bs s sf evs h
    exact ih s1 sf e2 hr (yin_window_len_step b s s1 e1 hcb hl)

/-- C4 (amended).  Window update: in both variants the `pre_notes` history is
updated — `pre_notes = pre_notes[1:] + [temp]`, evicting the oldest entry —
exactly on the blocks that pass the energy gate and yield a valid pitch; on a
silent block, and in run.py also on a block whose filtered observations are
empty or all of zero frequency, nothing is pushed and the window is left
unchanged (there is no sentinel push).  Starting from the sentinel-filled
initial windows, the window length is invariantly 4 in run.py and 3 in
yin.py. -/
theorem C4_window :
    (∀ (b : CrepeBlock) (s s' : CrepeState) (evs : List NoteEvent),
      audio_callback_crepe b s = Except.ok (s', evs) →
      (b.energy < energy_threshold → s'.pre_notes = s.pre_notes) ∧
      (¬ b.energy < energy_threshold → allZero (survivors b.obs) = true →
        s' = s ∧ evs = []) ∧
      (∀ t : ℤ, ¬ b.energy < energy_threshold →
        allZero (survivors b.obs) = false →
        quantizeHz (aggregate b.obs) = Except.ok t →
        s'.pre_notes = push s.pre_notes t)) ∧
    (∀ (b : YinBlock) (s s' : YinState) (evs : List NoteEvent),
      audio_callback_yin b s = Except.ok (s', evs) →
      (b.energy < energy_threshold → s'.pre_notes = s.pre_notes) ∧
      (∀ t : ℤ, ¬ b.energy < energy_threshold →
        quantizeHz b.f0 = Except.ok t →
        s'.pre_notes = push s.pre_notes t)) ∧
    (∀ (bs : List CrepeBlock) (sf : CrepeState) (evs : List NoteEvent),
      run_crepe bs crepeInit = Except.ok (sf, evs) → sf.pre_notes.length = 4) ∧
    (∀ (bs : List YinBlock) (sf : YinState) (evs : List NoteEvent),
      run_yin bs yinInit = Except.ok (sf, evs) → sf.pre_notes.length = 3) := by
  refine ⟨?_, ?_, ?_, ?_⟩
  · intro b s s' evs h
    exact crepe_window_step b s s' evs h
  · intro b s s' evs h
    obtain ⟨ha, hb⟩ := yin_window_step b s s' evs h
    exact ⟨fun h1 => (ha h1).1, fun t h1 hq => (hb t h1 hq).1⟩
  · intro bs sf evs h
    exact run_crepe_window_len bs crepeInit sf evs h (by decide)
  · intro bs sf evs h
    exact (run_yin_window_len bs yinInit sf evs h (by decide)).1

/-- C4.  The claimed "push the sentinel on silent blocks" behaviour is false:
after one valid 440 Hz block from the initial state the window is
`[-1, -1, -1, 69]`; a following silent block leaves it unchanged as
`[-1, -1, -1, 69]`, while the claim requires pushing `-1`, which would give
`[-1, -1, 69, -1]`. -/
theorem C4_window_cex :
    run_crepe [⟨1/100, [(440, 1)]⟩, ⟨0, []⟩] crepeInit =
      Except.ok (⟨-1, [-1, -1, -1, 69]⟩, []) ∧
    ([-1, -1, -1, 69] : List ℤ) ≠ push [-1, -1, -1, 69] (-1) := by
  have hE : ¬ ((1:ℚ)/100 < energy_threshold) := by norm_num [energy_threshold]
  have hqA : quantizeHz (aggregate [((440:ℚ), (1:ℚ))]) = Except.ok 69 := by
    rw [aggregate_single 440 1 (by norm_num)]
    exact quantizeHz_440
  have azA := allZero_single_false 440 1 (by norm_num) (by norm_num)
  have h1 : audio_callback_crepe ⟨1/100, [(440, 1)]⟩ ⟨-1, [-1, -1, -1, -1]⟩ =
      Except.ok (⟨-1, [-1, -1, -1, 69]⟩, []) := by
    rw [audio_callback_crepe_active ⟨1/100, [(440, 1)]⟩ ⟨-1, [-1, -1, -1, -1]⟩ 69 hE azA hqA]
    rw [if_neg (by decide)]
    rfl
  have h2 : audio_callback_crepe ⟨0, []⟩ ⟨-1, [-1, -1, -1, 69]⟩ =
      Except.ok (⟨-1, [-1, -1, -1, 69]⟩, []) := by
    rw [audio_callback_crepe_silent ⟨0, []⟩ ⟨-1, [-1, -1, -1, 69]⟩
      (by norm_num [energy_threshold])]
    rw [if_neg (by decide)]
  constructor
  · have hrun := run_crepe_cons_ok _ _ _ _ _ _ _ h1
      (run_crepe_cons_ok _ _ _ _ _ _ _ h2 (run_crepe_nil _))
    simpa using hrun
  · decide

theorem C4_window_witness :
    audio_callback_crepe ⟨0, []⟩ ⟨-1, [-1, -1, -1, 69]⟩ =
      Except.ok (⟨-1, [-1, -1, -1, 69]⟩, []) ∧
    audio_callback_yin ⟨1/100, 440⟩ ⟨-1, [-1, -1, -1], [-1, -1, -1], 0⟩ =
      Except.ok (⟨-1, [-1, -1, 69], [-1, -1, 85], 0⟩, []) ∧
    push [-1, -1, -1] 69 = [-1, -1, 69] := by
  have hsil : audio_callback_crepe ⟨0, []⟩ ⟨-1, [-1, -1, -1, 69]⟩ =
      Except.ok (⟨-1, [-1, -1, -1, 69]⟩, []) := by
    rw [audio_callback_crepe_silent ⟨0, []⟩ ⟨-1, [-1, -1, -1, 69]⟩
      (by norm_num [energy_threshold])]
    rw [if_neg (by decide)]
  have hvy : cur_velo_yin (1/100) = 85 := by
    unfold cur_velo_yin
    rw [pyround_eq_of_bounds _ 85 (by norm_num) (by norm_num)]
    decide
  have hyact : audio_callback_yin ⟨1/100, 440⟩ ⟨-1, [-1, -1, -1], [-1, -1, -1], 0⟩ =
      Except.ok (⟨-1, [-1, -1, 69], [-1, -1, 85], 0⟩, []) := by
    rw [audio_callback_yin_active ⟨1/100, 440⟩ ⟨-1, [-1, -1, -1], [-1, -1, -1], 0⟩ 69
      (by norm_num [energy_threshold]) quantizeHz_440]
    rw [if_neg (by decide)]
    rw [show (⟨1/100, 440⟩ : YinBlock).energy = 1/100 from rfl, hvy]
    rfl
  have hcheck := (C4_window.1 ⟨0, []⟩ ⟨-1, [-1, -1, -1, 69]⟩
    ⟨-1, [-1, -1, -1, 69]⟩ [] hsil).1 (by norm_num [energy_threshold])
  have hcheck2 := (C4_window.2.1 ⟨1/100, 440⟩ ⟨-1, [-1, -1, -1], [-1, -1, -1], 0⟩
    ⟨-1, [-1, -1, 69], [-1, -1, 85], 0⟩ [] hyact).2 69
    (by norm_num [energy_threshold]) quantizeHz_440
  exact ⟨hsil, hyact, hcheck2 ▸ rfl⟩

/-- C5.  Teardown sends nothing: both shutdown paths (run.py falls off the
`with stream:` block and deletes the MIDI port; yin.py's KeyboardInterrupt
handler stops and closes the stream and deletes the port) send no MIDI
message, so with note 60 sounding no synthetic NoteOff is produced and the
note stays open — the spec requires exactly one NoteOff here. -/
theorem C5_teardown_no_noteoff :
    teardown_events_crepe ⟨60, [-1, -1, 60, 60]⟩ = [] ∧
    teardown_events_yin ⟨60, [60, 60, 60], [50, 50, 50], 2⟩ = [] ∧
    offCount (teardown_events_crepe ⟨60, [-1, -1, 60, 60]⟩) = 0 := by
  exact ⟨rfl, rfl, rfl⟩

/-- C6.  Quantization: on every positive frequency the quantization step
computes Python's `round(69 + 12*log2(f/440))`; 440 Hz gives note 69,
466.16 Hz gives note 70; the exact half-semitone boundary `440 * 2^(1/24)`
resolves deterministically to 70 (`hz_to_midi` is exactly 69.5 there and
round-half-to-even picks the even note 70), while 452.88 Hz, just below the
boundary, gives 69 and 452.90 Hz, just above, gives 70. -/
theorem C6_quantization :
    (∀ f : ℚ, 0 < f →
      quantizeHz f = Except.ok (pyroundR (69 + 12 * Real.logb 2 ((f : ℝ) / 440)))) ∧
    quantizeHz 440 = Except.ok 69 ∧
    quantizeHz (46616/100) = Except.ok 70 ∧
    pyroundR (hz_to_midi (440 * (2 : ℝ) ^ ((1 : ℝ) / 24))) = 70 ∧
    quantizeHz (45288/100) = Except.ok 69 ∧
    quantizeHz (45290/100) = Except.ok 70 := by
  refine ⟨?_, quantizeHz_440, quantizeHz_466_16, ?_, quantizeHz_452_88, quantizeHz_452_90⟩
  · intro f hf
    rw [quantizeHz_pos f hf,
      hz_to_midi_pos_eq (f : ℝ) (by exact_mod_cast hf)]
  · rw [hz_to_midi_boundary, pyroundR_69_half]

theorem C6_quantization_witness :
    (0 : ℚ) < 440 ∧
    quantizeHz 440 =
      Except.ok (pyroundR (69 + 12 * Real.logb 2 (((440 : ℚ) : ℝ) / 440))) :=
  ⟨by norm_num, C6_quantization.1 440 (by norm_num)⟩

theorem cur_velo_crepe_lb (e : ℚ) (h : ¬ e < energy_threshold) :
    1 ≤ pyround ((e - 1/500) / (3/200) * 127) := by
  have he : energy_threshold ≤ e := not_lt.mp h
  rw [energy_threshold] at he
  have hrw : (e - 1/500) / (3/200) * 127 = (e - 1/500) * (25400/3) := by ring
  refine pyround_ge 1 _ ?_
  rw [hrw]
  nlinarith

theorem cur_velo_yin_lb (e : ℚ) (h : ¬ e < energy_threshold) :
    1 ≤ pyround ((e - 1/500) / (3/250) * 127) := by
  have he : energy_threshold ≤ e := not_lt.mp h
  rw [energy_threshold] at he
  have hrw : (e - 1/500) / (3/250) * 127 = (e - 1/500) * (31750/3) := by ring
  refine pyround_ge 1 _ ?_
  rw [hrw]
  nlinarith

theorem crepe_on_velocity (b : CrepeBlock) (s s' : CrepeState)
    (evs : List NoteEvent) (n v : ℤ)
    (h : audio_callback_crepe b s = Except.ok (s', evs))
    (hm : NoteEvent.on n v ∈ evs) :
    v = cur_velo_crepe b.energy ∧ ¬ b.energy < energy_threshold := by
  by_cases h1 : b.energy < energy_threshold
  · rw [audio_callback_crepe_silent b s h1] at h
    by_cases h2 : s.cur_note ≠ -1
    · rw [if_pos h2] at h
      simp only [Except.ok.injEq, Prod.mk.injEq] at h
      rw [← h.2] at hm
      simp at hm
    · rw [if_neg h2] at h
      simp only [Except.ok.injEq, Prod.mk.injEq] at h
      rw [← h.2] at hm
      simp at hm
  · refine ⟨?_, h1⟩
    by_cases h2 : allZero (survivors b.obs)
    · rw [audio_callback_crepe_invalid b s h1 h2] at h
      simp only [Except.ok.injEq, Prod.mk.injEq] at h
      rw [← h.2] at hm
      simp at hm
    · rcases hq : quantizeHz (aggregate b.obs) with u | t
      · rw [audio_callback_crepe_error b s h1 (Bool.not_eq_true _ ▸ h2) hq] at h
        cases h
      · rw [audio_callback_crepe_active b s t h1 (Bool.not_eq_true _ ▸ h2) hq] at h
        by_cases h3 : t = last1 s.pre_notes ∧ t = last2 s.pre_notes
        · rw [if_pos h3] at h
          by_cases h4 : t ≠ s.cur_note ∧ t ≠ -1
          · rw [if_pos h4] at h
            simp only [Except.ok.injEq, Prod.mk.injEq] at h
            rw [← h.2] at hm
            rcases List.mem_append.mp hm with hmem | hmem
            · by_cases h5 : s.cur_note ≠ -1
              · rw [if_pos h5] at hmem
                simp at hmem
              · rw [if_neg h5] at hmem
                simp at hmem
            · simp at hmem
              exact hmem.2.symm.symm
          · rw [if_neg h4] at h
            simp only [Except.ok.injEq, Prod.mk.injEq] at h
            rw [← h.2] at hm
            simp at hm
        · rw [if_neg h3] at h
          simp only [Except.ok.injEq, Prod.mk.injEq] at h
          rw [← h.2] at hm
          simp at hm

theorem yin_on_velocity (b : YinBlock) (s s' : YinState)
    (evs : List NoteEvent) (n v : ℤ)
    (h : audio_callback_yin b s = Except.ok (s', evs))
    (hm : NoteEvent.on n v ∈ evs) :
    v = cur_velo_yin b.energy ∧ ¬ b.energy < energy_threshold := by
  by_cases h1 : b.energy < energy_threshold
  · rw [audio_callback_yin_silent b s h1] at h
    by_cases h2 : s.cur_note ≠ -1
    · rw [if_pos h2] at h
      simp only [Except.ok.injEq, Prod.mk.injEq] at h
      rw [← h.2] at hm
      simp at hm
    · rw [if_neg h2] at h
      simp only [Except.ok.injEq, Prod.mk.injEq] at h
      rw [← h.2] at hm
      simp at hm
  · refine ⟨?_, h1⟩
    rcases hq : quantizeHz b.f0 with u | t
    · rw [audio_callback_yin] at h
      rw [if_neg h1, hq] at h
      cases h
    · rw [audio_callback_yin_active b s t h1 hq] at h
      by_cases h3 : t = last1 s.pre_notes ∧ t = last2 s.pre_notes
      · rw [if_pos h3] at h
        by_cases h4 : t ≠ s.cur_note
        · rw [if_pos h4] at h
          simp only [Except.ok.injEq, Prod.mk.injEq] at h
          rw [← h.2] at hm
          rcases List.mem_append.mp hm with hmem | hmem
          · by_cases h5 : s.cur_note ≠ -1
            · rw [if_pos h5] at hmem
              simp at hmem
            · rw [if_neg h5] at hmem
              simp at hmem
          · simp at hmem
            exact hmem.2.symm.symm
        · rw [if_neg h4] at h
          by_cases h6 : cur_velo_yin b.energy > last1 s.pre_velo + 20 ∧ s.call_count > 1
          · rw [if_pos h6] at h
            simp only [Except.ok.injEq, Prod.mk.injEq] at h
            rw [← h.2] at hm
            simp at hm
            exact hm.2.symm.symm
          · rw [if_neg h6] at h
            simp only [Except.ok.injEq, Prod.mk.injEq] at h
            rw [← h.2] at hm
            simp at hm
      · rw [if_neg h3] at h
        simp only [Except.ok.injEq, Prod.mk.injEq] at h
        rw [← h.2] at hm
        simp at hm

/-- C7.  Velocity mapping: for every block that passes the energy gate the
mapped velocity equals `round((energy - 0.002) / scale * 127)` — scale 0.015
in run.py and 0.012 in yin.py — clamped to `[1, 127]` (the code only clamps
from above with `min(127, ...)`, but the gate makes the rounded value at
least 25, resp. 31, so the lower clamp is never active), and every emitted
NoteOn in either variant carries a velocity in `[1, 127]`. -/
theorem C7_velocity :
    (∀ e : ℚ, ¬ e < energy_threshold →
      cur_velo_crepe e = max 1 (min 127 (pyround ((e - 1/500) / (3/200) * 127))) ∧
      1 ≤ cur_velo_crepe e ∧ cur_velo_crepe e ≤ 127) ∧
    (∀ e : ℚ, ¬ e < energy_threshold →
      cur_velo_yin e = max 1 (min 127 (pyround ((e - 1/500) / (3/250) * 127))) ∧
      1 ≤ cur_velo_yin e ∧ cur_velo_yin e ≤ 127) ∧
    (∀ (b : CrepeBlock) (s s' : CrepeState) (evs : List NoteEvent) (n v : ℤ),
      audio_callback_crepe b s = Except.ok (s', evs) →
      NoteEvent.on n v ∈ evs → 1 ≤ v ∧ v ≤ 127) ∧
    (∀ (b : YinBlock) (s s' : YinState) (evs : List NoteEvent) (n v : ℤ),
      audio_callback_yin b s = Except.ok (s', evs) →
      NoteEvent.on n v ∈ evs → 1 ≤ v ∧ v ≤ 127) := by
  have hcb : ∀ e : ℚ, ¬ e < energy_threshold →
      cur_velo_crepe e = max 1 (min 127 (pyround ((e - 1/500) / (3/200) * 127))) ∧
      1 ≤ cur_velo_crepe e ∧ cur_velo_crepe e ≤ 127 := by
    intro e he
    have hlb := cur_velo_crepe_lb e he
    have h1 : (1:ℤ) ≤ min 127 (pyround ((e - 1/500) / (3/200) * 127)) :=
      le_min (by norm_num) hlb
    exact ⟨(max_eq_right h1).symm, h1, min_le_left _ _⟩
  have hyb : ∀ e : ℚ, ¬ e < energy_threshold →
      cur_velo_yin e = max 1 (min 127 (pyround ((e - 1/500) / (3/250) * 127))) ∧
      1 ≤ cur_velo_yin e ∧ cur_velo_yin e ≤ 127 := by
    intro e he
    have hlb := cur_velo_yin_lb e he
    have h1 : (1:ℤ) ≤ min 127 (pyround ((e - 1/500) / (3/250) * 127)) :=
      le_min (by norm_num) hlb
    exact ⟨(max_eq_right h1).symm, h1, min_le_left _ _⟩
  refine ⟨hcb, hyb, ?_, ?_⟩
  · intro b s s' evs n v h hm
    obtain ⟨hv, he⟩ := crepe_on_velocity b s s' evs n v h hm
    rw [hv]
    exact (hcb b.energy he).2
  · intro b s s' evs n v h hm
    obtain ⟨hv, he⟩ := yin_on_velocity b s s' evs n v h hm
    rw [hv]
    exact (hyb b.energy he).2

theorem C7_velocity_witness :
    cur_velo_crepe (1/100) =
      max 1 (min 127 (pyround (((1:ℚ)/100 - 1/500) / (3/200) * 127))) ∧
    (1:ℤ) ≤ cur_velo_crepe (1/100) ∧ cur_velo_crepe (1/100) ≤ 127 ∧
    cur_velo_yin (1/100) =
      max 1 (min 127 (pyround (((1:ℚ)/100 - 1/500) / (3/250) * 127))) := by
  have h1 := C7_velocity.1 (1/100) (by norm_num [energy_threshold])
  have h2 := C7_velocity.2.1 (1/100) (by norm_num [energy_threshold])
  exact ⟨h1.1, h1.2.1, h1.2.2, h2.1⟩

/-- C8 (amended).  Pitch aggregation in run.py: an observation survives the
confidence filter iff its confidence is strictly above 0.5 (so a confidence
of exactly 0.5 is discarded); the block is treated as invalid iff every
surviving frequency is zero — in particular when nothing survives — in which
case the callback emits nothing and leaves the state unchanged; otherwise
the aggregated pitch is the confidence-weighted mean `Σ(f·c)/Σc` over the
survivors, which for a single survivor is that observation's frequency. -/
theorem C8_aggregation :
    (∀ (obs : List (ℚ × ℚ)) (p : ℚ × ℚ),
      p ∈ survivors obs ↔ p ∈ obs ∧ 1/2 < p.2) ∧
    (∀ obs : List (ℚ × ℚ),
      allZero (survivors obs) = true ↔ ∀ p ∈ survivors obs, p.1 = 0) ∧
    (∀ obs : List (ℚ × ℚ), aggregate obs =
      ((survivors obs).map (fun p => p.1 * p.2)).sum /
        ((survivors obs).map (fun p => p.2)).sum) ∧
    (∀ (obs : List (ℚ × ℚ)) (f c : ℚ), survivors obs = [(f, c)] →
      aggregate obs = f) ∧
    (∀ (b : CrepeBlock) (s : CrepeState), ¬ b.energy < energy_threshold →
      allZero (survivors b.obs) = true →
      audio_callback_crepe b s = Except.ok (s, [])) := by
  have hmem : ∀ (obs : List (ℚ × ℚ)) (p : ℚ × ℚ),
      p ∈ survivors obs ↔ p ∈ obs ∧ 1/2 < p.2 := by
    intro obs p
    simp [survivors, List.mem_filter]
  refine ⟨hmem, ?_, ?_, ?_, ?_⟩
  · intro obs
    simp [allZero, List.all_eq_true]
  · intro obs
    rfl
  · intro obs f c hs
    have hc : 1/2 < c := by
      have := (hmem obs (f, c)).mp (by rw [hs] ; simp)
      exact this.2
    rw [aggregate, hs]
    simp
    rw [mul_div_assoc, div_self (by linarith), mul_one]
  · intro b s h1 h2
    exact audio_callback_crepe_invalid b s h1 h2

/-- C8.  The claim's filter is false at confidence exactly 0.5: the
observation `(440 Hz, 0.5)` is not below the confidence floor, yet run.py's
strict filter `confidence > 0.5` discards it, leaving no observation, and the
block is declared invalid rather than aggregating to 440 Hz. -/
theorem C8_aggregation_cex :
    ¬ ((1:ℚ)/2 < 1/2) ∧
    survivors [((440:ℚ), (1:ℚ)/2)] = [] ∧
    allZero (survivors [((440:ℚ), (1:ℚ)/2)]) = true := by
  refine ⟨by norm_num, ?_, ?_⟩
  · simp [survivors, List.filter_cons]
  · rw [show survivors [((440:ℚ), (1:ℚ)/2)] = [] by simp [survivors, List.filter_cons]]
    rfl

theorem C8_aggregation_witness :
    survivors [((440:ℚ), (3:ℚ)/4), ((100:ℚ), (1:ℚ)/4)] = [(440, 3/4)] ∧
    aggregate [((440:ℚ), (3:ℚ)/4), ((100:ℚ), (1:ℚ)/4)] = 440 ∧
    audio_callback_crepe ⟨1/100, [(0, 1)]⟩ ⟨60, [-1, -1, 60, 60]⟩ =
      Except.ok (⟨60, [-1, -1, 60, 60]⟩, []) := by
  have hs : survivors [((440:ℚ), (3:ℚ)/4), ((100:ℚ), (1:ℚ)/4)] = [(440, 3/4)] := by
    simp [survivors, List.filter_cons]
    norm_num
  refine ⟨hs, C8_aggregation.2.2.2.1 _ 440 (3/4) hs, ?_⟩
  refine C8_aggregation.2.2.2.2 ⟨1/100, [(0, 1)]⟩ ⟨60, [-1, -1, 60, 60]⟩
    (by norm_num [energy_threshold]) ?_
  rw [show survivors [((0:ℚ), (1:ℚ))] = [(0, 1)] from
    survivors_single_kept 0 1 (by norm_num)]
  rfl

theorem aggregate_pos (obs : List (ℚ × ℚ)) (hnn : ∀ p ∈ obs, 0 ≤ p.1)
    (hz : allZero (survivors obs) = false) : 0 < aggregate obs := by
  have hmem : ∀ p ∈ survivors obs, p ∈ obs ∧ 1/2 < p.2 := by
    intro p hp
    simpa [survivors, List.mem_filter] using hp
  obtain ⟨p0, hp0, hp0ne⟩ : ∃ p ∈ survivors obs, ¬ p.1 = 0 := by
    simpa [allZero, List.all_eq_false] using hz
  have hp0pos : 0 < p0.1 := lt_of_le_of_ne (hnn p0 (hmem p0 hp0).1) (Ne.symm hp0ne)
  have hp0c : 0 < p0.2 := lt_trans (by norm_num) (hmem p0 hp0).2
  have hnum : 0 < ((survivors obs).map (fun p => p.1 * p.2)).sum := by
    have hall : ∀ x ∈ (survivors obs).map (fun p => p.1 * p.2), 0 ≤ x := by
      intro x hx
      obtain ⟨q, hq, hqx⟩ := List.mem_map.mp hx
      rw [← hqx]
      have := hmem q hq
      exact mul_nonneg (hnn q this.1) (by linarith [this.2])
    have hx0 : p0.1 * p0.2 ∈ (survivors obs).map (fun p => p.1 * p.2) :=
      List.mem_map.mpr ⟨p0, hp0, rfl⟩
    have := List.single_le_sum hall _ hx0
    nlinarith
  have hden : 0 < ((survivors obs).map (fun p => p.2)).sum := by
    have hall : ∀ x ∈ (survivors obs).map (fun p => p.2), 0 ≤ x := by
      intro x hx
      obtain ⟨q, hq, hqx⟩ := List.mem_map.mp hx
      rw [← hqx]
      linarith [(hmem q hq).2]
    have hx0 : p0.2 ∈ (survivors obs).map (fun p => p.2) :=
      List.mem_map.mpr ⟨p0, hp0, rfl⟩
    have := List.single_le_sum hall _ hx0
    linarith
  exact div_pos hnum hden

/-- C9 (amended).  Per-block fault containment as the code implements it: an
observation set left empty by the confidence filter — and more generally one
whose surviving frequencies are all zero — is recovered locally by run.py's
`if not np.any(frequency): return` (no event, state unchanged, nothing
raised), and on any block whose observations all carry nonnegative
frequencies the run.py callback is total; the yin.py callback is total on
any block with positive f0 and on any silent block.  But the callback is not
total on arbitrary inputs: a surviving negative-frequency observation drives
the aggregated pitch negative and the quantization step raises. -/
theorem C9_fault_containment :
    (∀ (b : CrepeBlock) (s : CrepeState), ¬ b.energy < energy_threshold →
      allZero (survivors b.obs) = true →
      audio_callback_crepe b s = Except.ok (s, [])) ∧
    (∀ (b : CrepeBlock) (s : CrepeState), (∀ p ∈ b.obs, 0 ≤ p.1) →
      ∃ r, audio_callback_crepe b s = Except.ok r) ∧
    (∀ (b : YinBlock) (s : YinState), 0 < b.f0 →
      ∃ r, audio_callback_yin b s = Except.ok r) ∧
    (∀ (b : YinBlock) (s : YinState), b.energy < energy_threshold →
      ∃ r, audio_callback_yin b s = Except.ok r) := by
  refine ⟨?_, ?_, ?_, ?_⟩
  · intro b s h1 h2
    exact audio_callback_crepe_invalid b s h1 h2
  · intro b s hnn
    by_cases h1 : b.energy < energy_threshold
    · rw [audio_callback_crepe_silent b s h1]
      exact ⟨_, rfl⟩
    · by_cases h2 : allZero (survivors b.obs)
      · rw [audio_callback_crepe_invalid b s h1 h2]
        exact ⟨_, rfl⟩
      · have h2' : allZero (survivors b.obs) = false := Bool.not_eq_true _ ▸ h2
        have hpos := aggregate_pos b.obs hnn h2'
        rw [audio_callback_crepe_active b s
          (pyroundR (hz_to_midi ((aggregate b.obs : ℚ) : ℝ))) h1 h2'
          (quantizeHz_pos _ hpos)]
        exact ⟨_, rfl⟩
  · intro b s hf
    by_cases h1 : b.energy < energy_threshold
    · rw [audio_callback_yin_silent b s h1]
      exact ⟨_, rfl⟩
    · rw [audio_callback_yin_active b s
        (pyroundR (hz_to_midi ((b.f0 : ℚ) : ℝ))) h1 (quantizeHz_pos _ hf)]
      exact ⟨_, rfl⟩
  · intro b s h1
    rw [audio_callback_yin_silent b s h1]
    exact ⟨_, rfl⟩

/-- C9.  The claim that no exception ever crosses the callback boundary is
false: a single surviving observation with a negative frequency, (-100 Hz,
confidence 0.9), passes `np.any` (it is nonzero), the aggregated pitch is
-100, and `round(librosa.core.hz_to_midi(-100))` raises (log2 of a negative
number is nan, and Python's `round(nan)` raises ValueError), aborting the
stream. -/
theorem C9_fault_containment_cex :
    audio_callback_crepe ⟨1/100, [(-100, 9/10)]⟩ ⟨-1, [-1, -1, -1, -1]⟩ =
      Except.error () := by
  apply audio_callback_crepe_error
  · norm_num [energy_threshold]
  · rw [survivors_single_kept (-100) (9/10) (by norm_num)]
    simp [allZero]
  · rw [aggregate_single (-100) (9/10) (by norm_num)]
    exact quantizeHz_nonpos _ (by norm_num)

theorem C9_fault_containment_witness :
    (∀ p ∈ [((440:ℚ), (1:ℚ))], 0 ≤ p.1) ∧
    (∃ r, audio_callback_crepe ⟨1/100, [(440, 1)]⟩ ⟨-1, [-1, -1, -1, -1]⟩ =
      Except.ok r) ∧
    (∃ r, audio_callback_yin ⟨1/100, 440⟩ yinInit = Except.ok r) := by
  have hnn : ∀ p ∈ [((440:ℚ), (1:ℚ))], 0 ≤ p.1 := by
    intro p hp
    simp only [List.mem_cons, List.not_mem_nil, or_false] at hp
    subst hp
    norm_num
  exact ⟨hnn,
    C9_fault_containment.2.1 ⟨1/100, [(440, 1)]⟩ ⟨-1, [-1, -1, -1, -1]⟩ hnn,
    C9_fault_containment.2.2.1 ⟨1/100, 440⟩ yinInit (by norm_num)⟩
